import Mathlib

/-!
Shallow embedding of the agentic website-audit coordination core
(`src/utils/scoring.py`, `src/orchestrator/context_store.py`,
`src/orchestrator/revision_manager.py`, `src/agents/base_agent.py`,
`src/agents/critique_agent.py`, `src/agents/conversion_agent.py`,
`src/agents/competitor_agent.py`, `src/orchestrator/orchestrator.py`).

Conventions of the embedding:
* Python dicts (which preserve insertion order) are association lists
  `List (String × α)`; `dictSet` replaces in place or appends, `dictGet`
  looks up the first matching key, mirroring dict semantics.
* Python floats are idealized as rationals `ℚ`.
* Python exceptions are `Except String`.
* `datetime.now()` strings are opaque parameters.
* The `run()` of an agent is modelled as a function of the context returning
  `Except String ModuleScore`; its side writes to non-`analyses` state
  (pages, screenshots) are not modelled — no claim concerns them, and the
  `analyses` map is written only through `BaseAgent.execute` in the source.
-/

namespace WebsiteAudit

/-- Python-dict lookup on an association list: first entry whose key matches. -/
def dictGet {α : Type} : List (String × α) → String → Option α
  | [], _ => none
  | (k, v) :: rest, key => if k = key then some v else dictGet rest key

/-- Python-dict assignment: replace the entry in place if the key is present,
append at the end otherwise (dicts preserve insertion order). -/
def dictSet {α : Type} : List (String × α) → String → α → List (String × α)
  | [], k, v => [(k, v)]
  | (k0, v0) :: rest, k, v =>
      if k0 = k then (k, v) :: rest else (k0, v0) :: dictSet rest k v

/-- Python `str.rstrip` with a slash argument: drop all trailing slash characters. -/
def rstripSlash (s : String) : String :=
  ((s.toList.reverse.dropWhile (· = '/')).reverse).asString

/-- Python `str.lower()` for the ASCII module names the code compares. -/
def pyToLower (s : String) : String := (s.toList.map Char.toLower).asString

/-- Character-list test: does the second list start with the first? -/
def charsStartWith : List Char → List Char → Bool
  | [], _ => true
  | _ :: _, [] => false
  | n :: ns, h :: hs => n = h && charsStartWith ns hs

/-- Character-list test: does the first list contain the second anywhere? -/
def charsHaveSub : List Char → List Char → Bool
  | [], _ => false
  | h :: hs, needle => charsStartWith needle (h :: hs) || charsHaveSub hs needle

/-- Python `needle in hay` for strings (substring containment). -/
def pyContains (hay needle : String) : Bool :=
  needle = "" || charsHaveSub hay.toList needle.toList

/-- Python `round` to the nearest integer, ties to even (banker rounding),
idealized over `ℚ`. -/
def pyRoundInt (q : ℚ) : ℤ :=
  let f : ℤ := ⌊q⌋
  let r : ℚ := q - f
  if r < 1/2 then f
  else if r > 1/2 then f + 1
  else if f % 2 = 0 then f else f + 1

/-- Python `round(x, 1)`: one decimal digit, ties to even. -/
def pyRound1 (q : ℚ) : ℚ := (pyRoundInt (q * 10) : ℚ) / 10

/-- Python `str.title()`: alphabetic characters are uppercased when they follow
a non-alphabetic character and lowercased otherwise. -/
def pyTitle (s : String) : String :=
  (s.toList.foldl
    (fun (acc : List Char × Bool) c =>
      if c.isAlpha then
        (acc.1 ++ [if acc.2 then c.toLower else c.toUpper], true)
      else (acc.1 ++ [c], false))
    ([], false)).1.asString

/-! ### `src/utils/scoring.py` -/

/-- Outcomes replacing simple A-F grades (`ConsultingOutcome`). -/
inductive ConsultingOutcome where
  | authority | leader | contender | riskDilution | riskCommodity
  | gapAuthority | gapConversion | gapVisibility
  deriving DecidableEq, Repr

inductive Impact where
  | high | medium | low
  deriving DecidableEq, Repr

inductive Effort where
  | high | medium | low
  deriving DecidableEq, Repr

inductive KPIImpact where
  | closeRate | websiteTraffic | leadConversion | pipelineVelocity
  | brandAwareness | customerTrust | engagement | seoRanking
  | bounceRate | timeOnSite
  deriving DecidableEq, Repr

/-- A single recommendation with impact/effort scoring (`Recommendation`). -/
structure Recommendation where
  issue : String
  recommendation : String
  impact : Impact
  effort : Effort
  businessImpact : String := ""
  category : String := ""
  pageUrl : String := ""
  kpiImpact : Option KPIImpact := none
  deriving DecidableEq, Repr

/-- Individual scoring criterion (`ScoreItem`). -/
structure ScoreItem where
  name : String
  description : String
  maxPoints : ℤ
  actualPoints : ℤ := 0
  notes : String := ""
  recommendation : String := ""
  businessImpact : String := ""
  pageUrl : String := ""
  deriving DecidableEq, Repr

/-- One agent-level critique verdict, an entry of the `critique_results`
list of the critique agent (a Python dict with keys `agent`, `passed`, `issues`,
`suggestions` and, when a score exists, `score_percentage`). -/
structure CritiqueResult where
  agent : String
  passed : Bool
  issues : List String
  suggestions : List String
  scorePercentage : Option ℚ := none
  deriving DecidableEq, Repr

/-- An entry of the `revision_requests` list of the critique agent (a Python dict
with keys `agent`, `issues`, `suggestions`). -/
structure RevReqData where
  agent : String
  issues : List String
  suggestions : List String
  deriving DecidableEq, Repr

/-- The `raw_data` payload of a `ModuleScore` — in Python a heterogeneous
dict; modelled as one record holding every key the embedded code reads or
writes, with Python-falsy defaults (`[]`, `0`) standing for an absent key,
exactly as `dict.get` with a falsy default conflates them. -/
structure RawData where
  strengths : List String := []
  weaknesses : List String := []
  avgLoadTime : ℚ := 0
  competitors : List String := []
  pagesAnalyzed : List String := []
  totalCtas : ℕ := 0
  totalForms : ℕ := 0
  critiqueResults : List CritiqueResult := []
  revisionRequests : List RevReqData := []
  passedCount : ℕ := 0
  totalCount : ℕ := 0
  deriving DecidableEq, Repr

/-- Score for an entire audit module (`ModuleScore`). -/
structure ModuleScore where
  name : String
  weight : ℚ := 1
  items : List ScoreItem := []
  recommendations : List Recommendation := []
  analysisText : String := ""
  rawData : RawData := {}
  deriving DecidableEq, Repr

def ModuleScore.maxPoints (s : ModuleScore) : ℤ :=
  (s.items.map ScoreItem.maxPoints).sum

def ModuleScore.actualPoints (s : ModuleScore) : ℤ :=
  (s.items.map ScoreItem.actualPoints).sum

def ModuleScore.percentage (s : ModuleScore) : ℚ :=
  if s.maxPoints = 0 then 0
  else ((s.actualPoints : ℚ) / (s.maxPoints : ℚ)) * 100

/-- Map percentage to consulting outcome (`ModuleScore.outcome`): thresholds
95/90/80/70/60, with a context-aware failure bucket chosen from the module
name below 60%. -/
def ModuleScore.outcome (s : ModuleScore) : ConsultingOutcome :=
  let pct := s.percentage
  if pct ≥ 95 then .authority
  else if pct ≥ 90 then .leader
  else if pct ≥ 80 then .contender
  else if pct ≥ 70 then .riskDilution
  else if pct ≥ 60 then .riskCommodity
  else
    let nameLower := pyToLower s.name
    if pyContains nameLower "trust" || pyContains nameLower "social" then .gapAuthority
    else if pyContains nameLower "conversion" then .gapConversion
    else .gapVisibility

/-- The root cause of growth stagnation identified by the orchestrator
(`StrategicFrictionPoint`). -/
structure StrategicFrictionPoint where
  title : String
  description : String
  primarySymptom : String
  businessImpact : String
  deriving DecidableEq, Repr

/-! ### `src/orchestrator/context_store.py` -/

/-- Status of the execution of an agent (`AgentStatus`). -/
inductive AgentStatus where
  | pending | running | completed | failed | needsRevision
  deriving DecidableEq, Repr

/-- A call-to-action record found on a page: in Python a dict; the embedded
code only copies it while stamping the page URL (`get_all_ctas`), so it is
modelled by its text payload plus that stamp. -/
structure Cta where
  text : String := ""
  pageUrl : String := ""
  deriving DecidableEq, Repr

/-- A form record found on a page, modelled like `Cta`. -/
structure FormData where
  text : String := ""
  pageUrl : String := ""
  deriving DecidableEq, Repr

/-- Data extracted from a single page (`PageData`), restricted to the fields
the embedded operations read. -/
structure PageData where
  url : String
  title : String := ""
  rawText : String := ""
  ctas : List Cta := []
  forms : List FormData := []
  pageType : String := ""
  deriving DecidableEq, Repr

/-- Result from the analysis of one agent (`AgentAnalysis`). -/
structure AgentAnalysis where
  agentName : String
  status : AgentStatus := .pending
  moduleScore : Option ModuleScore := none
  analysisText : String := ""
  hiddenPlan : String := ""
  rawData : RawData := {}
  errors : List String := []
  startedAt : String := ""
  completedAt : String := ""
  revisionCount : ℕ := 0
  selfAuditPassed : Bool := false
  deriving DecidableEq, Repr

/-- Shared state container for all agents during an audit (`ContextStore`),
restricted to the fields the embedded operations read or write. -/
structure ContextStore where
  companyName : String := ""
  companyWebsite : String := ""
  industry : String := "B2B SaaS"
  auditDate : String := ""
  analystName : String := ""
  analystCompany : String := "Bhavsar Growth Consulting"
  competitors : List String := []
  pages : List (String × PageData) := []
  analyses : List (String × AgentAnalysis) := []
  clientLogoB64 : String := ""
  analystLogoB64 : String := ""
  maxRevisions : ℕ := 3
  deriving Repr

def ContextStore.getAnalysis (ctx : ContextStore) (agentName : String) :
    Option AgentAnalysis :=
  dictGet ctx.analyses agentName

/-- `ContextStore.set_analysis`: store the record under its own `agent_name`. -/
def ContextStore.setAnalysis (ctx : ContextStore) (a : AgentAnalysis) : ContextStore :=
  { ctx with analyses := dictSet ctx.analyses a.agentName a }

/-- `ContextStore.get_homepage`: try the configured website URL with trailing
slashes stripped, then with one trailing slash, then fall back to the first
page in insertion order; `none` only when no page was crawled. -/
def ContextStore.getHomepage (ctx : ContextStore) : Option PageData :=
  let p1 := rstripSlash ctx.companyWebsite
  match dictGet ctx.pages p1 with
  | some pg => some pg
  | none =>
    match dictGet ctx.pages (p1 ++ "/") with
    | some pg => some pg
    | none => ctx.pages.head?.map Prod.snd

/-- `ContextStore.get_all_ctas`: flatten CTAs across pages, stamping each with
its page URL. -/
def ContextStore.getAllCtas (ctx : ContextStore) : List Cta :=
  ctx.pages.foldl
    (fun acc p => acc ++ p.2.ctas.map (fun c => { c with pageUrl := p.2.url })) []

/-- `ContextStore.get_all_forms`: flatten forms across pages, stamping each
with its page URL. -/
def ContextStore.getAllForms (ctx : ContextStore) : List FormData :=
  ctx.pages.foldl
    (fun acc p => acc ++ p.2.forms.map (fun f => { f with pageUrl := p.2.url })) []

/-! ### `src/agents/base_agent.py` -/

/-- `BaseAgent.can_run`: true iff every named dependency has a COMPLETED
analysis in the store. -/
def canRun (deps : List String) (ctx : ContextStore) : Bool :=
  deps.all (fun d =>
    match ctx.getAnalysis d with
    | some a => a.status = .completed
    | none => false)

/-- `BaseAgent.get_missing_dependencies`. -/
def missingDeps (deps : List String) (ctx : ContextStore) : List String :=
  deps.filter (fun d =>
    match ctx.getAnalysis d with
    | some a => !(a.status = .completed : Bool)
    | none => true)

/-- `BaseAgent.self_audit` (the default policy): fail when no score was
produced, when the score has no items, or when the narrative text is missing
or under 50 characters. -/
def defaultSelfAudit (a : AgentAnalysis) : Bool :=
  match a.moduleScore with
  | none => false
  | some score =>
    if score.items = [] then false
    else if score.analysisText = "" || score.analysisText.length < 50 then false
    else true

/-- `BaseAgent.execute`, the single entry point used by the scheduler. `runR` embeds the
subclass `run()` (an `Except.error` is a raised Python exception), `sAudit`
the (possibly overridden) `self_audit`, `cot` the `_generate_cot_plan`
string, `ts1`/`ts2` the two `datetime.now()` reads. Paths, as in the source:
dependency-unmet early return (no `set_analysis` call — the record reaches
the store only through Python aliasing, i.e. when it was already stored),
then RUNNING + store, plan, `run()`; an error gives FAILED with the message
appended; otherwise `self_audit` decides COMPLETED vs NEEDS_REVISION; the
final record is written back with `set_analysis`. The embedding identifies
the store key with the `agent_name` field of the record: every record the program
stores satisfies this (records enter the map only via `set_analysis`, keyed
by `agent_name`, a field no code reassigns). -/
def execute (name : String) (deps : List String) (sAudit : AgentAnalysis → Bool)
    (runR : ContextStore → Except String ModuleScore) (cot ts1 ts2 : String)
    (ctx : ContextStore) : AgentAnalysis × ContextStore :=
  let prior := ctx.getAnalysis name
  let a0 : AgentAnalysis := prior.getD { agentName := name }
  if canRun deps ctx = false then
    let a1 := { a0 with
      status := .pending,
      errors := a0.errors ++
        ["Dependencies not met: " ++ String.intercalate ", " (missingDeps deps ctx)] }
    (a1, if prior.isSome then ctx.setAnalysis a1 else ctx)
  else
    let a1 := { a0 with status := .running, startedAt := ts1 }
    let ctx1 := ctx.setAnalysis a1
    let a2 := { a1 with hiddenPlan := cot }
    let ctx2 := ctx1.setAnalysis a2
    match runR ctx2 with
    | .error e =>
        let a3 := { a2 with status := .failed, errors := a2.errors ++ [e] }
        (a3, ctx2.setAnalysis a3)
    | .ok score =>
        let a3 := { a2 with
          moduleScore := some score,
          analysisText := score.analysisText,
          rawData := score.rawData }
        let sa := sAudit a3
        let a4 := { a3 with
          selfAuditPassed := sa,
          status := if sa then .completed else .needsRevision,
          completedAt := ts2 }
        (a4, ctx2.setAnalysis a4)

/-! ### `src/orchestrator/revision_manager.py` -/

/-- Request for an agent to revise its analysis (`RevisionRequest`). -/
structure RevisionRequest where
  agentName : String
  reason : String
  suggestedImprovements : List String
  requestedAt : String := ""
  priority : ℕ := 1
  deriving DecidableEq, Repr

/-- Result of a revision attempt (`RevisionResult`). -/
structure RevisionResult where
  agentName : String
  cycle : ℕ
  success : Bool
  improvementsMade : List String
  remainingIssues : List String
  completedAt : String := ""
  deriving DecidableEq, Repr

/-- Tracks revision requests and results (`RevisionManager`). -/
structure RevisionManager where
  maxRevisions : ℕ := 3
  revisionRequests : List (String × List RevisionRequest) := []
  revisionResults : List (String × List RevisionResult) := []
  currentCycle : ℕ := 0
  deriving DecidableEq, Repr

/-- `self.revision_requests.get(agent_name, [])`. -/
def RevisionManager.requestsFor (m : RevisionManager) (agentName : String) :
    List RevisionRequest :=
  (dictGet m.revisionRequests agentName).getD []

/-- `self.revision_results.get(agent_name, [])`. -/
def RevisionManager.resultsFor (m : RevisionManager) (agentName : String) :
    List RevisionResult :=
  (dictGet m.revisionResults agentName).getD []

/-- `RevisionManager.can_request_revision`: fewer recorded results than the
budget. -/
def RevisionManager.canRequestRevision (m : RevisionManager) (agentName : String) : Bool :=
  (m.resultsFor agentName).length < m.maxRevisions

/-- `RevisionManager.request_revision`: `none` and unchanged state when the
budget is exhausted, otherwise append a new request under the name of the agent. -/
def RevisionManager.requestRevision (m : RevisionManager) (agentName reason : String)
    (suggestedImprovements : List String) (priority : ℕ := 1) :
    Option RevisionRequest × RevisionManager :=
  if m.canRequestRevision agentName = false then (none, m)
  else
    let req : RevisionRequest :=
      { agentName := agentName, reason := reason,
        suggestedImprovements := suggestedImprovements, priority := priority }
    (some req,
      { m with revisionRequests :=
          dictSet m.revisionRequests agentName (m.requestsFor agentName ++ [req]) })

/-- `RevisionManager.record_revision_result`: append unconditionally, with
`cycle` = new length of the result list of that agent. -/
def RevisionManager.recordRevisionResult (m : RevisionManager) (agentName : String)
    (success : Bool) (improvementsMade remainingIssues : List String) :
    RevisionResult × RevisionManager :=
  let res : RevisionResult :=
    { agentName := agentName, cycle := (m.resultsFor agentName).length + 1,
      success := success, improvementsMade := improvementsMade,
      remainingIssues := remainingIssues }
  (res,
    { m with revisionResults :=
        dictSet m.revisionResults agentName (m.resultsFor agentName ++ [res]) })

/-- Stable insertion step for an ascending sort by priority. -/
def insertByPriority (r : RevisionRequest) : List RevisionRequest → List RevisionRequest
  | [] => [r]
  | y :: ys => if r.priority ≤ y.priority then r :: y :: ys else y :: insertByPriority r ys

/-- Stable ascending sort by priority, as the Python `sorted` with a
priority key produces. -/
def sortByPriority (l : List RevisionRequest) : List RevisionRequest :=
  l.foldr insertByPriority []

/-- `RevisionManager.get_pending_revisions`: for each agent with more requests
than results, the first unprocessed request; sorted by priority (stable, like
the Python `sorted`). -/
def RevisionManager.getPendingRevisions (m : RevisionManager) : List RevisionRequest :=
  sortByPriority (m.revisionRequests.filterMap (fun p =>
    let results := (dictGet m.revisionResults p.1).getD []
    if results.length < p.2.length then p.2[results.length]? else none))

/-- `RevisionManager.start_new_cycle`. -/
def RevisionManager.startNewCycle (m : RevisionManager) : RevisionManager :=
  { m with currentCycle := m.currentCycle + 1 }

/-- `RevisionManager.should_continue_revising`: false when the cycle budget is
spent or no request is pending; otherwise true iff some pending agent can
still be revised. -/
def RevisionManager.shouldContinueRevising (m : RevisionManager) : Bool :=
  if m.currentCycle ≥ m.maxRevisions then false
  else
    let pending := m.getPendingRevisions
    if pending = [] then false
    else pending.any (fun r => m.canRequestRevision r.agentName)

/-! ### `src/agents/critique_agent.py` -/

namespace CritiqueAgent

/-- `CritiqueAgent.dependencies` — note that `competitor` is not on the list. -/
def dependencies : List String :=
  ["positioning", "seo", "conversion", "content",
   "trust", "social", "segmentation", "resource_hub", "top5_pages"]

/-- `QUALITY_THRESHOLDS` entry `min_analysis_length`. -/
def minAnalysisLength : ℕ := 100

/-- `QUALITY_THRESHOLDS` entry `min_score_items`. -/
def minScoreItems : ℕ := 3

/-- `QUALITY_THRESHOLDS` entry `min_recommendations`. -/
def minRecommendations : ℕ := 2

/-- `QUALITY_THRESHOLDS` entry `max_empty_notes`. -/
def maxEmptyNotes : ℕ := 2

/-- The result dict of `CritiqueAgent._agent_specific_critique`. -/
structure SpecificCritique where
  issues : List String := []
  suggestions : List String := []
  fail : Bool := false
  deriving DecidableEq, Repr

/-- `CritiqueAgent._agent_specific_critique`: per-agent specialized checks;
only the `competitor` branch is fatal (`fail := true`). -/
def agentSpecificCritique (agentName : String) (score : ModuleScore) : SpecificCritique :=
  if agentName = "positioning" then
    if score.rawData.strengths = [] ∧ score.rawData.weaknesses = [] then
      { issues := ["No strengths/weaknesses identified"],
        suggestions := ["Identify specific positioning strengths and weaknesses"] }
    else {}
  else if agentName = "seo" then
    if score.rawData.avgLoadTime = 0 then
      { issues := ["Missing performance metrics"],
        suggestions := ["Include specific load time measurements"] }
    else {}
  else if agentName = "competitor" then
    if score.rawData.competitors = [] then
      { issues := ["No competitor data captured"], fail := true }
    else {}
  else if agentName = "top5_pages" then
    if score.rawData.pagesAnalyzed = [] ∨ score.rawData.pagesAnalyzed.length < 3 then
      { issues := ["Too few critical pages analyzed"],
        suggestions := ["Ensure homepage, product, and pricing pages are analyzed"] }
    else {}
  else {}

/-- `CritiqueAgent._critique_analysis`: evaluate the analysis of one agent against
the fixed thresholds, accumulating issues/suggestions in source order; the
verdict is `passed ∧ issues.length ≤ 2`. `llmAvailable` embeds
`self.llm.is_available()`. -/
def critiqueAnalysis (llmAvailable : Bool) (agentName : String)
    (analysis : AgentAnalysis) : CritiqueResult :=
  match analysis.moduleScore with
  | none =>
      { agent := agentName, passed := false,
        issues := ["No module score produced"],
        suggestions := ["Ensure agent produces valid ModuleScore"] }
  | some score =>
    let textShort := score.analysisText = "" ∨ score.analysisText.length < minAnalysisLength
    let fewItems := score.items.length < minScoreItems
    let emptyNotes :=
      (score.items.filter
        (fun it => it.notes = "" ∨ it.notes = "Manual review recommended")).length
    let ratioList := score.items.map
      (fun it => if it.maxPoints > 0 then (it.actualPoints : ℚ) / (it.maxPoints : ℚ) else 0)
    -- Python: len(set(round(s, 1) for s in scores)) == 1 and len(scores) > 3;
    -- the two conjuncts of this pure predicate are stated length-guard first.
    let uniform := ratioList.length > 3 ∧ (ratioList.map pyRound1).dedup.length = 1
    let specific := agentSpecificCritique agentName score
    let issues :=
      (if textShort then ["Analysis text too short or missing"] else []) ++
      (if fewItems then
        ["Too few score items (" ++ toString score.items.length ++ ")"] else []) ++
      (if emptyNotes > maxEmptyNotes then
        [toString emptyNotes ++ " score items lack specific notes"] else []) ++
      (if llmAvailable ∧ score.recommendations.length < minRecommendations then
        ["Too few recommendations"] else []) ++
      (if uniform then
        ["All scores are identical - may indicate superficial analysis"] else []) ++
      specific.issues
    let suggestions :=
      (if textShort then ["Provide more detailed analysis explanation"] else []) ++
      (if fewItems then
        ["Add more granular scoring criteria (minimum " ++ toString minScoreItems ++ ")"]
       else []) ++
      (if emptyNotes > maxEmptyNotes then
        ["Add specific observations to each score item"] else []) ++
      (if llmAvailable ∧ score.recommendations.length < minRecommendations then
        ["Provide at least " ++ toString minRecommendations ++ " actionable recommendations"]
       else []) ++
      (if uniform then ["Differentiate scoring based on specific criteria"] else []) ++
      specific.suggestions
    let passedFlag := !textShort ∧ !fewItems ∧ !specific.fail
    { agent := agentName,
      passed := passedFlag ∧ issues.length ≤ 2,
      issues := issues, suggestions := suggestions,
      scorePercentage := some score.percentage }

/-- `CritiqueAgent._check_consistency`: flag a positioning/content score gap
above 30 percentage points. -/
def checkConsistency (ctx : ContextStore) : List String :=
  match ctx.getAnalysis "positioning", ctx.getAnalysis "content" with
  | some pa, some ca =>
    match pa.moduleScore, ca.moduleScore with
    | some ps, some cs =>
        if |ps.percentage - cs.percentage| > 30 then
          ["Large score gap between positioning (" ++ toString (pyRoundInt ps.percentage) ++
           "%) and content (" ++ toString (pyRoundInt cs.percentage) ++ "%)"]
        else []
    | _, _ => []
  | _, _ => []

/-- `CritiqueAgent._generate_critique_summary`. -/
def generateCritiqueSummary (results : List CritiqueResult)
    (revisionRequests : List RevReqData) : String :=
  let passedCount := (results.filter (fun r => r.passed)).length
  let header :=
    ["## Audit Quality Review\n",
     "**Agents Reviewed:** " ++ toString results.length,
     "**Passed Quality Check:** " ++ toString passedCount,
     "**Flagged for Revision:** " ++ toString revisionRequests.length,
     ""]
  let issueParts :=
    if revisionRequests = [] then []
    else
      ["### Issues Found:\n"] ++
      revisionRequests.foldl (fun acc req =>
        acc ++ ["**" ++ pyTitle req.agent ++ ":**"] ++
          (req.issues.take 3).map (fun i => "  - " ++ i) ++ [""]) []
  let passRate : ℚ :=
    if results = [] then 0 else (passedCount : ℚ) / (results.length : ℚ)
  let assessment :=
    if passRate ≥ 8/10 then
      ["**Overall Assessment:** Good quality - minor improvements suggested"]
    else if passRate ≥ 6/10 then
      ["**Overall Assessment:** Acceptable - some revisions recommended"]
    else
      ["**Overall Assessment:** Needs improvement - multiple revisions required"]
  String.intercalate "\n" (header ++ issueParts ++ assessment)

/-- `CritiqueAgent.run`: critique every dependency agent whose analysis is
COMPLETED, collect a revision-request entry for each failure, add a
`cross_agent` entry when the consistency check fires, and package everything
into the critique `ModuleScore` (items, recommendations, narrative,
`raw_data`). The revision requests end up only in `raw_data` — the comment in
the source defers emitting them through the revision manager to the
orchestrator. -/
def run (ctx : ContextStore) (llmAvailable : Bool) : ModuleScore :=
  let critiques := dependencies.filterMap (fun n =>
    match ctx.getAnalysis n with
    | some a => if a.status = .completed then some (critiqueAnalysis llmAvailable n a) else none
    | none => none)
  let revisionRequests := critiques.filterMap (fun c =>
    if c.passed then none
    else some ({ agent := c.agent, issues := c.issues,
                 suggestions := c.suggestions } : RevReqData))
  let consistencyIssues := checkConsistency ctx
  let critiqueResults :=
    critiques ++
    (if consistencyIssues = [] then []
     else [{ agent := "cross_agent", passed := false, issues := consistencyIssues,
             suggestions := ["Ensure messaging consistency across analyses"] }])
  let passedCount := (critiqueResults.filter (fun c => c.passed)).length
  let totalCount := critiqueResults.length
  let items : List ScoreItem :=
    [{ name := "Quality Review", description := "Agents passing quality review",
       maxPoints := totalCount, actualPoints := passedCount,
       notes := toString passedCount ++ "/" ++ toString totalCount ++
         " agents passed critique" }] ++
    (if revisionRequests = [] then []
     else
       [{ name := "Revisions Needed", description := "Agents requiring revision",
          maxPoints := 0, actualPoints := 0,
          notes := toString revisionRequests.length ++ " agents flagged for revision" }])
  let recommendations := revisionRequests.map (fun req =>
    { issue := req.agent ++ " analysis needs improvement: " ++
        String.intercalate ", " (req.issues.take 2),
      recommendation := (req.suggestions.head?).getD "Review and improve analysis",
      impact := .medium, effort := .low,
      category := "Quality Assurance" : Recommendation })
  { name := "Audit Critique", weight := 0,
    items := items,
    recommendations := recommendations,
    analysisText := generateCritiqueSummary critiqueResults revisionRequests,
    rawData := { critiqueResults := critiqueResults,
                 revisionRequests := revisionRequests,
                 passedCount := passedCount, totalCount := totalCount } }

/-- `CritiqueAgent.self_audit` always passes. -/
def selfAudit (_ : AgentAnalysis) : Bool := true

end CritiqueAgent

/-! ### `src/agents/conversion_agent.py` -/

namespace ConversionAgent

/-- `ConversionAgent._fallback_analysis`: deterministic heuristic scores from
the CTA/form counts — CTA visibility `min(len(all_ctas) * 2, 20)`, form
optimization `10 if all_forms else 5`, the rest fixed. -/
def fallbackAnalysis (ctx : ContextStore) (module : ModuleScore)
    (allCtas : List Cta) (allForms : List FormData) : ModuleScore :=
  let ctaScore : ℤ := min ((allCtas.length : ℤ) * 2) 20
  let formScore : ℤ := if allForms ≠ [] then 10 else 5
  { module with
    items :=
      [{ name := "CTA Visibility", description := "Are CTAs prominent?",
         maxPoints := 20, actualPoints := ctaScore,
         notes := "Found " ++ toString allCtas.length ++ " CTAs" },
       { name := "CTA Copy", description := "Is copy compelling?",
         maxPoints := 15, actualPoints := 8, notes := "Manual review recommended" },
       { name := "Form Optimization", description := "Form length and clarity",
         maxPoints := 15, actualPoints := formScore,
         notes := "Found " ++ toString allForms.length ++ " forms" },
       { name := "Trust Signals Near Conversion", description := "Social proof near CTAs",
         maxPoints := 15, actualPoints := 7, notes := "Manual review recommended" },
       { name := "Path Clarity", description := "Is next step obvious?",
         maxPoints := 15, actualPoints := 7, notes := "Manual review recommended" },
       { name := "Multiple Entry Points", description := "Options for different stages",
         maxPoints := 10, actualPoints := 5, notes := "Manual review recommended" },
       { name := "Friction Reduction", description := "Minimal steps to convert",
         maxPoints := 10, actualPoints := 5, notes := "Manual review recommended" }],
    recommendations :=
      [{ issue := "CTA effectiveness not fully assessed",
         recommendation := "Replace generic CTA text (\x27Submit\x27, \x27Learn More\x27) with value-driven copy (\x27Get Your Free Audit\x27, \x27Start Saving Today\x27)",
         impact := .high, effort := .low, category := "Conversion Paths",
         pageUrl := ctx.companyWebsite, kpiImpact := some .leadConversion },
       { issue := "Form friction not fully assessed",
         recommendation := "Reduce form fields to essential-only (Name, Email, Company) for initial contact forms — move qualifying questions to follow-up",
         impact := .high, effort := .low, category := "Conversion Paths",
         pageUrl := ctx.companyWebsite, kpiImpact := some .leadConversion }],
    analysisText := "Basic analysis: Found " ++ toString allCtas.length ++
      " CTAs and " ++ toString allForms.length ++
      " forms across the site. Detailed analysis requires manual review.",
    rawData := { totalCtas := allCtas.length, totalForms := allForms.length } }

/-- `ConversionAgent.run` on the path where the text-generation collaborator
is unavailable (`self.llm.is_available()` false): aggregate the CTAs and
forms from the crawl and fall back to the heuristic analysis. -/
def runNoLlm (ctx : ContextStore) : ModuleScore :=
  fallbackAnalysis ctx { name := "Conversion Paths", weight := 1 }
    ctx.getAllCtas ctx.getAllForms

end ConversionAgent

/-! ### `src/agents/competitor_agent.py` -/

namespace CompetitorAgent

/-- `CompetitorAgent.run` on the path where `context.competitors` is empty
and `discover_competitors()` returned no URL: a fixed single-item module with
`raw_data` left at its dict default `{}` (so no `competitors` key). -/
def runNoneFound : ModuleScore :=
  { name := "Competitive Positioning", weight := 1,
    analysisText := "No competitors specified and discovery was unsuccessful.",
    items :=
      [{ name := "Competitor Analysis", description := "Competitive positioning review",
         maxPoints := 100, actualPoints := 50, notes := "No competitors found" }] }

/-- `CompetitorAgent.self_audit`: the base checks plus a non-empty
`competitors` entry in the `raw_data` of the produced score. -/
def selfAudit (a : AgentAnalysis) : Bool :=
  if defaultSelfAudit a = false then false
  else
    match a.moduleScore with
    | none => false
    | some score => score.rawData.competitors ≠ []

end CompetitorAgent

/-! ### `src/orchestrator/orchestrator.py` -/

namespace Orchestrator

/-- A registered agent as the orchestrator drives it: declared dependencies,
the `run()` behaviour, the `self_audit` policy and the plan string. -/
structure AgentSpec where
  deps : List String
  behavior : ContextStore → Except String ModuleScore
  sAudit : AgentAnalysis → Bool
  cot : String := ""

/-- The names registered by `register_all_agents`, in registration order. -/
def registeredAgentNames : List String :=
  ["website", "positioning", "seo", "conversion", "content", "trust", "social",
   "segmentation", "resource_hub", "top5_pages", "competitor", "critique",
   "deep_research", "prompt_visibility", "social_listening"]

/-- The fixed display order of `build_report`. -/
def agentOrder : List String :=
  ["positioning", "seo", "conversion", "content",
   "trust", "social", "segmentation", "resource_hub",
   "prompt_visibility", "social_listening",
   "top5_pages", "competitor"]

/-- The default friction point of `synthesize_findings`. -/
def genericFriction : StrategicFrictionPoint :=
  { title := "General Performance Gap",
    description := "The audit identified multiple areas for improvement across SEO, Trust, and Positioning.",
    primarySymptom := "Lower than expected growth",
    businessImpact := "Inefficient marketing spend" }

/-- Friction point of the "Leaky Bucket" synthesis rule. -/
def leakyBucketFriction : StrategicFrictionPoint :=
  { title := "The \x27Leaky Bucket\x27 Effect",
    description := "You are successfully driving traffic (High SEO/Visibility), but failing to convert it due to a critical lack of Trust signals.",
    primarySymptom := "High Rank, Low Revenue",
    businessImpact := "You are paying a \x27Trust Tax\x27 on every visitor, wasting ad spend and organic potential." }

/-- Friction point of the "Invisible Expert" synthesis rule. -/
def invisibleExpertFriction : StrategicFrictionPoint :=
  { title := "The Invisible Expert",
    description := "Your content and authority are world-class, but your technical foundation prevents buyers from finding you.",
    primarySymptom := "Great Product, No Traffic",
    businessImpact := "Your expertise is being drowned out by inferior competitors with better distribution." }

/-- Friction point of the "Commodity Trap" synthesis rule. -/
def commodityTrapFriction : StrategicFrictionPoint :=
  { title := "The Commodity Trap",
    description := "You are visible, but your messaging fails to differentiate you from cheaper competitors.",
    primarySymptom := "Price-based Sales Battles",
    businessImpact := "You are forced to compete on price rather than value, eroding margins." }

/-- The `scores` dict of `synthesize_findings`: outcome of each registered
agent that has an analysis with a module score (`scores.get(name)`; a dict
keyed by the distinct registered names is the same as this pointwise read). -/
def synthGet (ctx : ContextStore) (name : String) : Option ConsultingOutcome :=
  if name ∈ registeredAgentNames then
    (ctx.getAnalysis name).bind (fun a => a.moduleScore.map ModuleScore.outcome)
  else none

/-- `Orchestrator.synthesize_findings`: the "Leaky Bucket", "Invisible
Expert" and "Commodity Trap" rules in source order, else the generic default.
Python `scores.get(n) in [a, b]` is false when the key is absent. -/
def synthesizeFindings (ctx : ContextStore) : StrategicFrictionPoint :=
  let seoGood := synthGet ctx "seo" = some .authority ∨ synthGet ctx "seo" = some .leader
  let trustBad := synthGet ctx "trust" = some .gapAuthority ∨
    synthGet ctx "trust" = some .gapConversion
  if seoGood ∧ trustBad then leakyBucketFriction
  else
    let contentGood := synthGet ctx "content" = some .authority ∨
      synthGet ctx "content" = some .leader
    let seoBad := synthGet ctx "seo" = some .gapVisibility ∨
      synthGet ctx "seo" = some .riskDilution
    if contentGood ∧ seoBad then invisibleExpertFriction
    else
      let posBad := synthGet ctx "positioning" = some .riskCommodity ∨
        synthGet ctx "positioning" = some .gapAuthority
      if seoGood ∧ posBad then commodityTrapFriction
      else genericFriction

/-- Complete audit report (`AuditReport`), restricted to the fields
`build_report` writes. -/
structure AuditReport where
  companyName : String
  companyWebsite : String
  auditDate : String
  analystName : String := ""
  analystCompany : String := "Bhavsar Growth Consulting"
  clientLogo : String := ""
  analystLogo : String := ""
  modules : List ModuleScore := []
  strategicFriction : Option StrategicFrictionPoint := none
  deriving DecidableEq, Repr

/-- `Orchestrator.build_report`: append, in the fixed display order, the
module score of every agent whose analysis exists and carries one. -/
def buildReport (ctx : ContextStore) : AuditReport :=
  { companyName := ctx.companyName,
    companyWebsite := ctx.companyWebsite,
    auditDate := ctx.auditDate,
    analystName := ctx.analystName,
    analystCompany := ctx.analystCompany,
    clientLogo := ctx.clientLogoB64,
    analystLogo := ctx.analystLogoB64,
    modules := agentOrder.foldl (fun acc n =>
      match ctx.getAnalysis n with
      | some a =>
        match a.moduleScore with
        | some s => acc ++ [s]
        | none => acc
      | none => acc) [] }

/-- One agent of a phase as `run_phase` vets it: skipped unless registered,
with `can_run()` true and not already COMPLETED. -/
def eligibleEntry (table : List (String × AgentSpec)) (ctx : ContextStore)
    (n : String) : Option (String × AgentSpec) :=
  match dictGet table n with
  | none => none
  | some spec =>
    if canRun spec.deps ctx = false then none
    else
      match ctx.getAnalysis n with
      | some a => if a.status = .completed then none else some (n, spec)
      | none => some (n, spec)

/-- The agents of one phase that `run_phase` launches, decided against the
context at the phase start (the source builds the whole task list before
gathering). -/
def eligibleAgents (table : List (String × AgentSpec)) (phase : List String)
    (ctx : ContextStore) : List (String × AgentSpec) :=
  phase.filterMap (eligibleEntry table ctx)

/-- Execute a list of launched agents in order, threading the store. -/
def phaseFold (l : List (String × AgentSpec)) (ctx : ContextStore) : ContextStore :=
  l.foldl (fun c p => (execute p.1 p.2.deps p.2.sAudit p.2.behavior p.2.cot "" "" c).2) ctx

/-- `Orchestrator.run_phase`: execute each launched agent. The cooperative
gather is embedded as a sequential fold — each agent writes only its own
analysis record, so any interleaving yields this state. -/
def runPhase (table : List (String × AgentSpec)) (phase : List String)
    (ctx : ContextStore) : ContextStore :=
  phaseFold (eligibleAgents table phase ctx) ctx

/-- The phase sequence of `run_audit`, restricted to the agent phases. -/
def runPhases (table : List (String × AgentSpec)) (phases : List (List String))
    (ctx : ContextStore) : ContextStore :=
  phases.foldl (fun c p => runPhase table p c) ctx

/-- State threaded through the critique/revision loop. -/
structure RunState where
  ctx : ContextStore
  mgr : RevisionManager

/-- The inner `process_revision` coroutine of `run_revision_cycles`: call the
`revise` of the agent (bump the revision counter, set RUNNING, re-run — the
returned score is dropped by the orchestrator), re-run its `self_audit`, and
record the result with the manager. An exception from `revise` is not caught
here and propagates (as in the source, where the gather would re-raise). -/
def processRevision (table : List (String × AgentSpec)) (s : RunState)
    (req : RevisionRequest) : Except String RunState :=
  match dictGet table req.agentName with
  | none => .ok s
  | some spec =>
    let ctx1 :=
      match s.ctx.getAnalysis req.agentName with
      | some a => s.ctx.setAnalysis
          { a with revisionCount := a.revisionCount + 1, status := .running }
      | none => s.ctx
    match spec.behavior ctx1 with
    | .error e => .error e
    | .ok _revisedScore =>
      let aAfter := (ctx1.getAnalysis req.agentName).getD { agentName := req.agentName }
      let success := spec.sAudit aAfter
      let (_res, mgr1) := s.mgr.recordRevisionResult req.agentName success
        (if success then req.suggestedImprovements else [])
        (if success then [] else ["Revision did not resolve issues"])
      .ok { ctx := ctx1, mgr := mgr1 }

/-- The body of `run_revision_cycles`, with the `for cycle in
range(max_revisions)` loop as fuel recursion; the returned number counts how
many times the loop body ran. Errors escaping `process_revision` abort the
loop, as an uncaught exception would. -/
def runRevisionCyclesAux (table : List (String × AgentSpec)) (cSpec : AgentSpec) :
    ℕ → RunState → (Except String RunState) × ℕ
  | 0, s => (.ok s, 0)
  | fuel + 1, s =>
    let mgr1 := s.mgr.startNewCycle
    let ctx1 := (execute "critique" cSpec.deps cSpec.sAudit cSpec.behavior
      cSpec.cot "" "" s.ctx).2
    let pending := mgr1.getPendingRevisions
    if pending = [] then (.ok { ctx := ctx1, mgr := mgr1 }, 1)
    else
      match pending.foldlM (processRevision table) { ctx := ctx1, mgr := mgr1 } with
      | .error e => (.error e, 1)
      | .ok s2 =>
        if s2.mgr.shouldContinueRevising = false then (.ok s2, 1)
        else
          ((runRevisionCyclesAux table cSpec fuel s2).1,
           (runRevisionCyclesAux table cSpec fuel s2).2 + 1)

/-- `Orchestrator.run_revision_cycles`: nothing happens without a registered
critique agent; otherwise iterate up to `context.max_revisions` cycles of
critique, pending-revision query, revision processing and the
should-continue check. -/
def runRevisionCycles (table : List (String × AgentSpec)) (s : RunState) :
    (Except String RunState) × ℕ :=
  match dictGet table "critique" with
  | none => (.ok s, 0)
  | some cSpec => runRevisionCyclesAux table cSpec s.ctx.maxRevisions s

end Orchestrator

/-! ### Concrete fixtures used by the theorems below -/

/-- A 120-character narrative, long enough for every length threshold. -/
def longText : String := String.mk (List.replicate 120 'a')

/-- Three distinct, noted score items summing to 21/30 (70%). -/
def passItems : List ScoreItem :=
  [{ name := "I1", description := "d", maxPoints := 10, actualPoints := 8, notes := "note a" },
   { name := "I2", description := "d", maxPoints := 10, actualPoints := 7, notes := "note b" },
   { name := "I3", description := "d", maxPoints := 10, actualPoints := 6, notes := "note c" }]

/-- A module that passes every critique threshold. -/
def passingModule (nm : String) (rd : RawData) : ModuleScore :=
  { name := nm, items := passItems, analysisText := longText, rawData := rd }

/-- A COMPLETED analysis record for a module score, as `execute` produces it
on the success path. -/
def mkCompleted (n : String) (s : ModuleScore) : AgentAnalysis :=
  { agentName := n, status := .completed, moduleScore := some s,
    analysisText := s.analysisText, rawData := s.rawData, selfAuditPassed := true }

/-- An SEO module that fails critique: one item, a 5-character narrative, no
`avg_load_time` in `raw_data`. -/
def seoFailModule : ModuleScore :=
  { name := "SEO & Technical",
    items := [{ name := "I1", description := "d", maxPoints := 10, actualPoints := 5,
                notes := "n" }],
    analysisText := "short" }

/-- The nine critique-dependency analyses, all COMPLETED; every agent passes
critique except `seo`. -/
def ctxC1 : ContextStore :=
  { companyName := "Acme", companyWebsite := "https://acme.test", maxRevisions := 3,
    analyses :=
      [("positioning", mkCompleted "positioning"
          (passingModule "Positioning & Messaging" { strengths := ["clear ICP"] })),
       ("seo", mkCompleted "seo" seoFailModule),
       ("conversion", mkCompleted "conversion" (passingModule "Conversion Paths" {})),
       ("content", mkCompleted "content" (passingModule "Content Quality" {})),
       ("trust", mkCompleted "trust" (passingModule "Trust & Credibility" {})),
       ("social", mkCompleted "social" (passingModule "Social Media" {})),
       ("segmentation", mkCompleted "segmentation"
          (passingModule "Segmentation Analysis" {})),
       ("resource_hub", mkCompleted "resource_hub"
          (passingModule "Resource Hub Analysis" {})),
       ("top5_pages", mkCompleted "top5_pages"
          (passingModule "Top 5 Critical Pages"
            { pagesAnalyzed := ["home", "product", "pricing"] }))] }

/-- The critique agent as `register_all_agents` wires it, with the
text-generation collaborator unavailable. -/
def critiqueSpec : Orchestrator.AgentSpec :=
  { deps := CritiqueAgent.dependencies,
    behavior := fun c => .ok (CritiqueAgent.run c false),
    sAudit := CritiqueAgent.selfAudit }

/-- An agent table holding the critique agent. -/
def critiqueTable : List (String × Orchestrator.AgentSpec) :=
  [("critique", critiqueSpec)]

/-- The critique/revision phase run on `ctxC1`. -/
def c1Run : (Except String Orchestrator.RunState) × ℕ :=
  Orchestrator.runRevisionCycles critiqueTable
    { ctx := ctxC1, mgr := { maxRevisions := 3 } }

/-- Like `ctxC1` but with every critique dependency passing, plus the
competitor analysis that Scenario C produces: `run()` took the
no-competitors path, so `self_audit` failed and the record is
NEEDS_REVISION. -/
def ctxC8 : ContextStore :=
  { companyName := "Acme", companyWebsite := "https://acme.test", maxRevisions := 3,
    analyses :=
      [("positioning", mkCompleted "positioning"
          (passingModule "Positioning & Messaging" { strengths := ["clear ICP"] })),
       ("seo", mkCompleted "seo"
          (passingModule "SEO & Technical" { avgLoadTime := 2 })),
       ("conversion", mkCompleted "conversion" (passingModule "Conversion Paths" {})),
       ("content", mkCompleted "content" (passingModule "Content Quality" {})),
       ("trust", mkCompleted "trust" (passingModule "Trust & Credibility" {})),
       ("social", mkCompleted "social" (passingModule "Social Media" {})),
       ("segmentation", mkCompleted "segmentation"
          (passingModule "Segmentation Analysis" {})),
       ("resource_hub", mkCompleted "resource_hub"
          (passingModule "Resource Hub Analysis" {})),
       ("top5_pages", mkCompleted "top5_pages"
          (passingModule "Top 5 Critical Pages"
            { pagesAnalyzed := ["home", "product", "pricing"] })),
       ("competitor",
        { agentName := "competitor", status := .needsRevision,
          moduleScore := some CompetitorAgent.runNoneFound,
          analysisText := CompetitorAgent.runNoneFound.analysisText,
          selfAuditPassed := false })] }

/-- The critique/revision phase run on `ctxC8`. -/
def c8Run : (Except String Orchestrator.RunState) × ℕ :=
  Orchestrator.runRevisionCycles critiqueTable
    { ctx := ctxC8, mgr := { maxRevisions := 3 } }

/-- A manager with budget 1: one request, then one recorded result. -/
def mgrW0 : RevisionManager := { maxRevisions := 1 }

/-- `mgrW0` after one successful `request_revision` for the seo agent. -/
def mgrW1 : RevisionManager :=
  (mgrW0.requestRevision "seo" "Analysis text too short or missing" ["expand"] 1).2

/-- `mgrW1` after one `record_revision_result` for the seo agent — the budget is
now exhausted. -/
def mgrW2 : RevisionManager :=
  (mgrW1.recordRevisionResult "seo" false [] []).2

/-- Early `execute` of an agent whose single dependency never ran, against an
empty store: the dependency-unmet path with no prior record. -/
def c5Exec : AgentAnalysis × ContextStore :=
  execute "seo" ["website"] defaultSelfAudit
    (fun _ => .ok (passingModule "SEO & Technical" {})) "" "" "" { companyName := "Acme" }

/-- A store whose only analysis is NEEDS_REVISION yet carries a module score
(exactly what a failing `self_audit` leaves behind). -/
def ctxC6 : ContextStore :=
  { companyName := "Acme",
    analyses :=
      [("seo", { agentName := "seo", status := .needsRevision,
                 moduleScore := some seoFailModule,
                 analysisText := seoFailModule.analysisText })] }

/-- A positioning module at 95%. -/
def posModule95 : ModuleScore :=
  { name := "Positioning & Messaging",
    items := [{ name := "Overall", description := "d", maxPoints := 100,
                actualPoints := 95, notes := "n" }],
    analysisText := longText }

/-- A trust module at 30%. -/
def trustModule30 : ModuleScore :=
  { name := "Trust & Credibility",
    items := [{ name := "Overall", description := "d", maxPoints := 100,
                actualPoints := 30, notes := "n" }],
    analysisText := longText }

/-- An SEO module at 95%. -/
def seoModule95 : ModuleScore :=
  { name := "SEO & Technical",
    items := [{ name := "Overall", description := "d", maxPoints := 100,
                actualPoints := 95, notes := "n" }],
    analysisText := longText }

/-- Scenario E as the spec words it: positioning at 95%, trust at 30%,
nothing else analyzed. -/
def ctxC7 : ContextStore :=
  { companyName := "Acme",
    analyses :=
      [("positioning", mkCompleted "positioning" posModule95),
       ("trust", mkCompleted "trust" trustModule30)] }

/-- The variant that does trip the "Leaky Bucket" rule: SEO at 95% and trust
at 30%. -/
def ctxC7W : ContextStore :=
  { companyName := "Acme",
    analyses :=
      [("seo", mkCompleted "seo" seoModule95),
       ("trust", mkCompleted "trust" trustModule30)] }

/-- The Scenario B crawl snapshot: five pages holding eight CTAs and two forms
in total. -/
def ctxC9 : ContextStore :=
  { companyName := "Acme", companyWebsite := "https://acme.test",
    pages :=
      [("https://acme.test",
        { url := "https://acme.test",
          ctas := [{ text := "Demo" }, { text := "Trial" }, { text := "Contact" }],
          forms := [{ text := "contact form" }] }),
       ("https://acme.test/pricing",
        { url := "https://acme.test/pricing",
          ctas := [{ text := "Buy" }, { text := "Demo" }],
          forms := [{ text := "signup form" }] }),
       ("https://acme.test/product",
        { url := "https://acme.test/product",
          ctas := [{ text := "Learn" }, { text := "Demo" }] }),
       ("https://acme.test/about",
        { url := "https://acme.test/about", ctas := [{ text := "Contact" }] }),
       ("https://acme.test/blog", { url := "https://acme.test/blog" })] }

/-- `ctxC9` with a different company name but the same crawl snapshot. -/
def ctxC9b : ContextStore := { ctxC9 with companyName := "Other" }

/-- The homepage record of the `getHomepage` witness store. -/
def pgHome : PageData := { url := "https://acme.test", title := "Home" }

/-- A second page of the `getHomepage` witness store. -/
def pgAbout : PageData := { url := "https://acme.test/about", title := "About" }

/-- Store whose configured website (with a trailing slash) matches a crawled
page after stripping. -/
def ctxC10 : ContextStore :=
  { companyName := "Acme", companyWebsite := "https://acme.test/",
    pages := [("https://acme.test", pgHome), ("https://acme.test/about", pgAbout)] }

/-- Store whose configured website matches no crawled page at all. -/
def ctxC10b : ContextStore :=
  { companyName := "Acme", companyWebsite := "https://elsewhere.test",
    pages := [("https://acme.test", pgHome), ("https://acme.test/about", pgAbout)] }

/-- An agent whose `run()` raises. -/
def specBoom : Orchestrator.AgentSpec :=
  { deps := [], behavior := fun _ => .error "boom", sAudit := defaultSelfAudit }

/-- A dependency-free agent whose `run()` succeeds. -/
def specOk : Orchestrator.AgentSpec :=
  { deps := [], behavior := fun _ => .ok (passingModule "B Module" {}),
    sAudit := fun _ => true }

/-- Two-agent table: `a` raises in phase one, `b` runs in phase two. -/
def tableC2 : List (String × Orchestrator.AgentSpec) :=
  [("a", specBoom), ("b", specOk)]

/-- The context every agent of the `tableC2` run starts from. -/
def ctxT : ContextStore := { companyName := "T" }

/-- A store is well-keyed when every analysis record sits under its own
`agent_name` — the invariant every store built by the program satisfies,
since records enter the map only through `set_analysis`. -/
def WellKeyed (ctx : ContextStore) : Prop :=
  ∀ p ∈ ctx.analyses, p.2.agentName = p.1

/-- The revision-manager states reachable under the discipline of the
orchestrated run: a result is recorded only for an agent with a pending
request (`run_revision_cycles` records one result per entry of
`get_pending_revisions`), and a request is only emitted for an agent with no
pending request (each cycle processes all pending requests before the next
critique pass emits new ones — the barrier between steps 3 and 4 of the
critique/revision loop). -/
inductive ReachableMgr : RevisionManager → Prop where
  | init (maxRev : ℕ) : ReachableMgr { maxRevisions := maxRev }
  | newCycle {m : RevisionManager} : ReachableMgr m → ReachableMgr m.startNewCycle
  | request {m : RevisionManager} (n reason : String) (sugg : List String) (prio : ℕ) :
      ReachableMgr m →
      (m.requestsFor n).length = (m.resultsFor n).length →
      ReachableMgr (m.requestRevision n reason sugg prio).2
  | record {m : RevisionManager} (n : String) (success : Bool) (imp rem : List String) :
      ReachableMgr m →
      (m.resultsFor n).length < (m.requestsFor n).length →
      ReachableMgr (m.recordRevisionResult n success imp rem).2

/-! ## Helper lemmas -/

theorem dictGet_dictSet_self {α : Type} (m : List (String × α)) (k : String) (v : α) :
    dictGet (dictSet m k v) k = some v := by
  induction m with
  | nil => simp [dictGet, dictSet]
  | cons hd tl ih =>
      obtain ⟨k0, v0⟩ := hd
      by_cases h : k0 = k
      · simp [dictSet, h, dictGet]
      · simp [dictSet, h, dictGet, ih]

theorem dictGet_dictSet_ne {α : Type} (m : List (String × α)) (k k' : String) (v : α)
    (h : k' ≠ k) : dictGet (dictSet m k v) k' = dictGet m k' := by
  induction m with
  | nil =>
      simp only [dictSet, dictGet]
      rw [if_neg (fun hh => h hh.symm)]
  | cons hd tl ih =>
      obtain ⟨k0, v0⟩ := hd
      by_cases hk : k0 = k
      · subst hk
        simp only [dictSet, if_pos rfl, dictGet]
        rw [if_neg (fun hh => h hh.symm), if_neg (fun hh => h hh.symm)]
      · simp only [dictSet, if_neg hk, dictGet]
        by_cases hk' : k0 = k'
        · simp [hk']
        · simp [hk', ih]

theorem dictGet_mem {α : Type} (m : List (String × α)) (k : String) (v : α)
    (h : dictGet m k = some v) : (k, v) ∈ m := by
  induction m with
  | nil => simp [dictGet] at h
  | cons hd tl ih =>
      obtain ⟨k0, v0⟩ := hd
      by_cases hk : k0 = k
      · subst hk
        simp [dictGet] at h
        simp [h]
      · simp [dictGet, hk] at h
        exact List.mem_cons_of_mem _ (ih h)

theorem mem_dictSet {α : Type} (m : List (String × α)) (k : String) (v : α) (p : String × α)
    (h : p ∈ dictSet m k v) : p = (k, v) ∨ p ∈ m := by
  induction m with
  | nil => simpa [dictSet] using h
  | cons hd tl ih =>
      obtain ⟨k0, v0⟩ := hd
      by_cases hk : k0 = k
      · simp [dictSet, hk] at h
        rcases h with h | h
        · exact Or.inl (by simp [h])
        · exact Or.inr (List.mem_cons_of_mem _ h)
      · simp only [dictSet, if_neg hk, List.mem_cons] at h
        rcases h with h | h
        · exact Or.inr (by simp [h])
        · rcases ih h with h | h
          · exact Or.inl h
          · exact Or.inr (List.mem_cons_of_mem _ h)

theorem getAnalysis_setAnalysis_self (ctx : ContextStore) (a : AgentAnalysis) :
    (ctx.setAnalysis a).getAnalysis a.agentName = some a :=
  dictGet_dictSet_self ctx.analyses a.agentName a

theorem getAnalysis_setAnalysis_ne (ctx : ContextStore) (a : AgentAnalysis) (k : String)
    (h : k ≠ a.agentName) : (ctx.setAnalysis a).getAnalysis k = ctx.getAnalysis k :=
  dictGet_dictSet_ne ctx.analyses a.agentName k a h

theorem wellKeyed_at {ctx : ContextStore} (hwk : WellKeyed ctx) (k : String) :
    ∀ a, ctx.getAnalysis k = some a → a.agentName = k :=
  fun a h => hwk (k, a) (dictGet_mem _ _ _ h)

theorem wellKeyed_setAnalysis {ctx : ContextStore} (hwk : WellKeyed ctx)
    (a : AgentAnalysis) : WellKeyed (ctx.setAnalysis a) := by
  intro p hp
  rcases mem_dictSet _ _ _ _ hp with h | h
  · simp [h]
  · exact hwk p h

/-! ## Claim theorems -/

set_option maxRecDepth 100000 in
/-- Claim C1 (code_bug evidence): in the orchestrated critique/revision
cycle on a context where the seo agent fails critique, the critique agent
does flag seo — the stored critique analysis carries a `revision_requests`
entry for it — yet the revision manager ends the phase with an empty request
map and an empty pending-revision query: no `RevisionRequest` is ever
emitted through the manager, because no code calls `request_revision`. -/
theorem c1_failed_agent_gets_no_revision_request :
    ((CritiqueAgent.run ctxC1 false).rawData.revisionRequests.map RevReqData.agent
      = ["seo"])
    ∧ (c1Run.1.toOption.map (fun s =>
        (s.mgr.revisionRequests, s.mgr.revisionResults, s.mgr.getPendingRevisions))
      = some ([], [], []))
    ∧ ((c1Run.1.toOption.bind (fun s => s.ctx.getAnalysis "critique")).map
        (fun a => a.rawData.revisionRequests.map RevReqData.agent) = some ["seo"]) := by
  refine ⟨?_, ?_, ?_⟩ <;> decide

/-- Every aux iteration of the revision loop runs the body at most `fuel`
times. -/
theorem runRevisionCyclesAux_count_le (table : List (String × Orchestrator.AgentSpec))
    (cSpec : Orchestrator.AgentSpec) :
    ∀ fuel s, (Orchestrator.runRevisionCyclesAux table cSpec fuel s).2 ≤ fuel := by
  intro fuel
  induction fuel with
  | zero => intro s; simp [Orchestrator.runRevisionCyclesAux]
  | succ n ih =>
      intro s
      simp only [Orchestrator.runRevisionCyclesAux]
      split
      · simp
      · split
        · simp
        · split
          · simp
          · simpa using Nat.succ_le_succ (ih _)

/-- Claim C3: the critique/revision loop executes its body at most
`max_revisions` times, whatever the agent table, the context and the manager
state — the loop is a `for cycle in range(max_revisions)` with only `break`
exits. -/
theorem c3_revision_loop_bounded (table : List (String × Orchestrator.AgentSpec))
    (s : Orchestrator.RunState) :
    (Orchestrator.runRevisionCycles table s).2 ≤ s.ctx.maxRevisions := by
  unfold Orchestrator.runRevisionCycles
  split
  · simp
  · exact runRevisionCyclesAux_count_le _ _ _ _

/-- When the budget check passes, `request_revision` appends the new request
under the agent key. -/
theorem requestRevision_of_can (m : RevisionManager) (n reason : String)
    (sugg : List String) (prio : ℕ) (hc : m.canRequestRevision n = true) :
    (m.requestRevision n reason sugg prio).2
      = { m with revisionRequests :=
            dictSet m.revisionRequests n (m.requestsFor n ++
              [{ agentName := n, reason := reason,
                 suggestedImprovements := sugg, priority := prio }]) } := by
  unfold RevisionManager.requestRevision
  rw [hc]
  simp

/-- When the budget check fails, `request_revision` is a refusal. -/
theorem requestRevision_of_cannot (m : RevisionManager) (n reason : String)
    (sugg : List String) (prio : ℕ) (hc : m.canRequestRevision n = false) :
    m.requestRevision n reason sugg prio = (none, m) := by
  unfold RevisionManager.requestRevision
  rw [hc]
  simp

/-- Under the driven operations, each agent has at most as many results as
requests and at most `max_revisions` requests. -/
theorem reachableMgr_inv {m : RevisionManager} (hm : ReachableMgr m) :
    ∀ n, (m.resultsFor n).length ≤ (m.requestsFor n).length
      ∧ (m.requestsFor n).length ≤ m.maxRevisions := by
  induction hm with
  | init maxRev =>
      intro n
      simp [RevisionManager.resultsFor, RevisionManager.requestsFor, dictGet]
  | newCycle _ ih =>
      intro n
      simpa [RevisionManager.startNewCycle, RevisionManager.resultsFor,
             RevisionManager.requestsFor] using ih n
  | @request m0 n0 reason sugg prio _ hguard ih =>
      intro n
      cases hc : m0.canRequestRevision n0 with
      | false => simpa [requestRevision_of_cannot m0 n0 reason sugg prio hc] using ih n
      | true =>
          have hlt : (m0.resultsFor n0).length < m0.maxRevisions := by
            simpa [RevisionManager.canRequestRevision] using hc
          rw [requestRevision_of_can m0 n0 reason sugg prio hc]
          have h1 := (ih n).1
          have h2 := (ih n).2
          by_cases hn : n = n0
          · subst hn
            simp only [RevisionManager.requestsFor, RevisionManager.resultsFor,
              dictGet_dictSet_self, Option.getD_some] at h1 h2 hguard hlt ⊢
            simp only [List.length_append, List.length_cons, List.length_nil]
            omega
          · simp only [RevisionManager.requestsFor, RevisionManager.resultsFor,
              dictGet_dictSet_ne _ _ _ _ hn] at h1 h2 ⊢
            exact ⟨h1, h2⟩
  | @record m0 n0 success imp rem _ hguard ih =>
      intro n
      have hrec : (m0.recordRevisionResult n0 success imp rem).2
          = { m0 with revisionResults :=
                dictSet m0.revisionResults n0 (m0.resultsFor n0 ++
                  [{ agentName := n0, cycle := (m0.resultsFor n0).length + 1,
                     success := success, improvementsMade := imp,
                     remainingIssues := rem }]) } := rfl
      rw [hrec]
      have h1 := (ih n).1
      have h2 := (ih n).2
      by_cases hn : n = n0
      · subst hn
        simp only [RevisionManager.requestsFor, RevisionManager.resultsFor,
          dictGet_dictSet_self, Option.getD_some] at h1 h2 hguard ⊢
        simp only [List.length_append, List.length_cons, List.length_nil]
        omega
      · simp only [RevisionManager.requestsFor, RevisionManager.resultsFor,
          dictGet_dictSet_ne _ _ _ _ hn] at h1 h2 ⊢
        exact ⟨h1, h2⟩

/-- Claim C4: throughout any sequence of revision-manager operations driven
as the orchestrated run drives them (`ReachableMgr`), every agent satisfies
`len(results) ≤ len(requests) ≤ max_revisions`; and once an agent has
`max_revisions` recorded results, `request_revision` refuses — it returns
`None` and leaves the manager unchanged. -/
theorem c4_revision_budget_invariant :
    ∀ m : RevisionManager, ReachableMgr m → ∀ n : String,
      ((m.resultsFor n).length ≤ (m.requestsFor n).length
        ∧ (m.requestsFor n).length ≤ m.maxRevisions)
      ∧ (∀ reason sugg prio, m.maxRevisions ≤ (m.resultsFor n).length →
          m.requestRevision n reason sugg prio = (none, m)) := by
  intro m hm n
  refine ⟨reachableMgr_inv hm n, ?_⟩
  intro reason sugg prio hge
  have hc : m.canRequestRevision n = false := by
    simp only [RevisionManager.canRequestRevision, decide_eq_false_iff_not]
    omega
  exact requestRevision_of_cannot m n reason sugg prio hc

/-- Witness for C4: with a budget of one, a requested and recorded revision
exhausts the seo agent, after which the invariant holds and a further
request is refused. -/
theorem c4_witness :
    ((mgrW2.resultsFor "seo").length ≤ (mgrW2.requestsFor "seo").length
      ∧ (mgrW2.requestsFor "seo").length ≤ mgrW2.maxRevisions)
    ∧ mgrW2.requestRevision "seo" "again" ["more"] 1 = (none, mgrW2) := by
  have hreach : ReachableMgr mgrW2 :=
    ReachableMgr.record "seo" false [] []
      (ReachableMgr.request "seo" "Analysis text too short or missing" ["expand"] 1
        (ReachableMgr.init 1) (by decide))
      (by decide)
  have h := c4_revision_budget_invariant mgrW2 hreach "seo"
  exact ⟨h.1, h.2 "again" ["more"] 1 (by decide)⟩

/-- Folding append-if-some over a list is `filterMap`. -/
theorem foldl_append_filterMap {α β : Type} (g : α → Option β) :
    ∀ (l : List α) (init : List β),
      l.foldl (fun acc n => acc ++ (g n).toList) init = init ++ l.filterMap g := by
  intro l
  induction l with
  | nil => intro init; simp
  | cons x xs ih =>
      intro init
      cases hg : g x <;> simp [List.filterMap_cons, hg, ih]

/-- Claim C6 (corrected): the report module list is exactly the module
scores present on the analyses of the display order, irrespective of
status — an agent contributes if and only if its analysis exists and
carries a module score. -/
theorem c6_modules_iff_score_present (ctx : ContextStore) :
    (Orchestrator.buildReport ctx).modules
      = Orchestrator.agentOrder.filterMap
          (fun n => (ctx.getAnalysis n).bind AgentAnalysis.moduleScore) := by
  have hfun : (fun (acc : List ModuleScore) (n : String) =>
      match ctx.getAnalysis n with
      | some a =>
        match a.moduleScore with
        | some s => acc ++ [s]
        | none => acc
      | none => acc)
      = (fun (acc : List ModuleScore) (n : String) =>
          acc ++ ((ctx.getAnalysis n).bind AgentAnalysis.moduleScore).toList) := by
    funext acc n
    cases ctx.getAnalysis n with
    | none => simp
    | some a => cases hms : a.moduleScore <;> simp [hms]
  unfold Orchestrator.buildReport
  dsimp only
  rw [hfun, foldl_append_filterMap
    (fun n => (ctx.getAnalysis n).bind AgentAnalysis.moduleScore) Orchestrator.agentOrder []]
  simp

/-- Counterexample for C6 as stated: in `ctxC6` the seo analysis has status
NEEDS_REVISION, not COMPLETED, yet its module score appears in the report
module list — inclusion is keyed on score presence, not on COMPLETED. -/
theorem c6_counterexample :
    ((ctxC6.getAnalysis "seo").map AgentAnalysis.status = some .needsRevision)
    ∧ (AgentStatus.needsRevision ≠ AgentStatus.completed)
    ∧ ((Orchestrator.buildReport ctxC6).modules = [seoFailModule]) := by
  refine ⟨?_, ?_, ?_⟩ <;> decide

/-- `_critique_analysis` labels its verdict with the critiqued agent name. -/
theorem critiqueAnalysis_agent (llm : Bool) (n : String) (a : AgentAnalysis) :
    (CritiqueAgent.critiqueAnalysis llm n a).agent = n := by
  unfold CritiqueAgent.critiqueAnalysis
  cases a.moduleScore <;> rfl

/-- Every critique verdict of a `CritiqueAgent.run` names either a
dependency agent or the synthetic `cross_agent` entry. -/
theorem critique_agents_from_dependencies (ctx : ContextStore) (llm : Bool) :
    ∀ r ∈ (CritiqueAgent.run ctx llm).rawData.critiqueResults,
      r.agent ∈ CritiqueAgent.dependencies ∨ r.agent = "cross_agent" := by
  intro r hr
  simp only [CritiqueAgent.run] at hr
  rw [List.mem_append] at hr
  rcases hr with hr | hr
  · rcases List.mem_filterMap.mp hr with ⟨n, hn, hfn⟩
    left
    cases hga : ctx.getAnalysis n with
    | none => rw [hga] at hfn; simp at hfn
    | some a =>
        rw [hga] at hfn
        by_cases hst : a.status = AgentStatus.completed
        · simp only [hst, if_pos rfl] at hfn
          have : r = CritiqueAgent.critiqueAnalysis llm n a := by
            simpa using hfn.symm
          rw [this, critiqueAnalysis_agent]
          exact hn
        · simp [hst] at hfn
  · right
    by_cases hcc : CritiqueAgent.checkConsistency ctx = []
    · simp [hcc] at hr
    · simp only [if_neg hcc, List.mem_singleton] at hr
      rw [hr]

set_option maxRecDepth 100000 in
/-- Claim C8 (code_bug evidence): on the no-competitors path the competitor
agent returns the fixed single-item module; the competitor-specific critique
check does mark that module a fatal failure; yet `CritiqueAgent.run` never
produces a verdict about the competitor agent — `competitor` is absent from
`CritiqueAgent.dependencies`, the only list it critiques — so in `ctxC8`,
where the competitor analysis carrying that module is in the store, the
revision cycle ends cleanly without ever applying the check. -/
theorem c8_competitor_critique_check_unreachable :
    (CompetitorAgent.runNoneFound.items
      = [{ name := "Competitor Analysis", description := "Competitive positioning review",
           maxPoints := 100, actualPoints := 50, notes := "No competitors found" }])
    ∧ (CritiqueAgent.agentSpecificCritique "competitor" CompetitorAgent.runNoneFound
        = { issues := ["No competitor data captured"], suggestions := [], fail := true })
    ∧ (∀ (ctx : ContextStore) (llm : Bool),
        (((CritiqueAgent.run ctx llm).rawData.critiqueResults.map CritiqueResult.agent).all
          (fun s => s ≠ "competitor")) = true)
    ∧ (((CritiqueAgent.run ctxC8 false).rawData.revisionRequests.map RevReqData.agent).all
        (fun s => s ≠ "competitor") = true)
    ∧ ((ctxC8.getAnalysis "competitor").map AgentAnalysis.moduleScore
        = some (some CompetitorAgent.runNoneFound))
    ∧ (c8Run.1.toOption.isSome = true) := by
  refine ⟨by decide, by decide, ?_, by decide, by decide, by decide⟩
  intro ctx llm
  rw [List.all_eq_true]
  intro s hs
  rcases List.mem_map.mp hs with ⟨r, hr, hrs⟩
  subst hrs
  rw [decide_eq_true_eq]
  intro heq
  rcases critique_agents_from_dependencies ctx llm r hr with hd | hd
  · rw [heq] at hd
    revert hd
    decide
  · rw [heq] at hd
    exact absurd hd (by decide)

/-- Claim C9: with the text-generation collaborator unavailable, the
conversion agent returns the heuristic fallback: a non-empty item list where
the CTA-visibility item scores `min(2 × #CTAs, 20)`, the form-optimization
item scores 10 when a form was detected and 5 otherwise, and every point
value is a function of the crawl snapshot alone. -/
theorem c9_fallback_deterministic_scores (ctx : ContextStore) :
    ((ConversionAgent.runNoLlm ctx).items ≠ [])
    ∧ ((ConversionAgent.runNoLlm ctx).items.map ScoreItem.actualPoints
        = [min ((ctx.getAllCtas.length : ℤ) * 2) 20, 8,
           if ctx.getAllForms ≠ [] then 10 else 5, 7, 7, 5, 5])
    ∧ (∀ ctx₂ : ContextStore, ctx.pages = ctx₂.pages →
        (ConversionAgent.runNoLlm ctx).items.map ScoreItem.actualPoints
          = (ConversionAgent.runNoLlm ctx₂).items.map ScoreItem.actualPoints) := by
  have hmap : ∀ c : ContextStore,
      (ConversionAgent.runNoLlm c).items.map ScoreItem.actualPoints
        = [min ((c.getAllCtas.length : ℤ) * 2) 20, 8,
           if c.getAllForms ≠ [] then 10 else 5, 7, 7, 5, 5] := fun c => rfl
  refine ⟨?_, hmap ctx, ?_⟩
  · simp [ConversionAgent.runNoLlm, ConversionAgent.fallbackAnalysis]
  · intro ctx₂ hp
    have hc : ctx.getAllCtas = ctx₂.getAllCtas := by
      unfold ContextStore.getAllCtas; rw [hp]
    have hf : ctx.getAllForms = ctx₂.getAllForms := by
      unfold ContextStore.getAllForms; rw [hp]
    rw [hmap ctx, hmap ctx₂, hc, hf]

/-- Witness for C9, on the Scenario B snapshot (eight CTAs, two forms across
five pages): 16 CTA points, 10 form points, and the same point values on a
store differing only outside the crawl snapshot. -/
theorem c9_witness :
    ((ConversionAgent.runNoLlm ctxC9).items.map ScoreItem.actualPoints
      = [16, 8, 10, 7, 7, 5, 5])
    ∧ ((ConversionAgent.runNoLlm ctxC9).items ≠ [])
    ∧ ((ConversionAgent.runNoLlm ctxC9).items.map ScoreItem.actualPoints
        = (ConversionAgent.runNoLlm ctxC9b).items.map ScoreItem.actualPoints) := by
  refine ⟨?_, (c9_fallback_deterministic_scores ctxC9).1,
    (c9_fallback_deterministic_scores ctxC9).2.2 ctxC9b rfl⟩
  rw [(c9_fallback_deterministic_scores ctxC9).2.1]
  decide

/-- Claim C10: `get_homepage` returns the page keyed by the configured
website URL with trailing slashes stripped when present, else the key with
one trailing slash restored, else the first crawled page in insertion
order; it returns `None` exactly when nothing was crawled. -/
theorem c10_get_homepage (ctx : ContextStore) :
    ((ctx.getHomepage = none) ↔ ctx.pages = [])
    ∧ (∀ pg, dictGet ctx.pages (rstripSlash ctx.companyWebsite) = some pg →
        ctx.getHomepage = some pg)
    ∧ (∀ pg, dictGet ctx.pages (rstripSlash ctx.companyWebsite) = none →
        dictGet ctx.pages (rstripSlash ctx.companyWebsite ++ "/") = some pg →
        ctx.getHomepage = some pg)
    ∧ (dictGet ctx.pages (rstripSlash ctx.companyWebsite) = none →
        dictGet ctx.pages (rstripSlash ctx.companyWebsite ++ "/") = none →
        ctx.getHomepage = ctx.pages.head?.map Prod.snd) := by
  refine ⟨?_, ?_, ?_, ?_⟩
  · cases hp : ctx.pages with
    | nil =>
        simp only [ContextStore.getHomepage, hp]
        simp [dictGet]
    | cons x xs =>
        simp only [ContextStore.getHomepage, hp]
        cases h1 : dictGet (x :: xs) (rstripSlash ctx.companyWebsite) with
        | some pg => simp [h1]
        | none =>
            cases h2 : dictGet (x :: xs) (rstripSlash ctx.companyWebsite ++ "/") with
            | some pg => simp [h1, h2]
            | none => simp [h1, h2]
  · intro pg h1
    simp only [ContextStore.getHomepage, h1]
  · intro pg h1 h2
    simp only [ContextStore.getHomepage, h1, h2]
  · intro h1 h2
    simp only [ContextStore.getHomepage, h1, h2]

/-- Witness for C10: a matching key after slash-stripping returns that page;
with no matching key the first crawled page is returned; and a crawled store
never yields `None`. -/
theorem c10_witness :
    (ctxC10.getHomepage = some pgHome)
    ∧ (ctxC10b.getHomepage = some pgHome)
    ∧ (¬(ctxC10.getHomepage = none)) := by
  have h1 : ctxC10.getHomepage = some pgHome :=
    (c10_get_homepage ctxC10).2.1 pgHome (by decide)
  have h2 : ctxC10b.getHomepage = some pgHome := by
    have h := (c10_get_homepage ctxC10b).2.2.2 (by decide) (by decide)
    rw [h]
    decide
  refine ⟨h1, h2, ?_⟩
  intro hnone
  have := ((c10_get_homepage ctxC10).1).mp hnone
  revert this
  decide

/-- On every path of `execute` except the dependency-unmet early return with
no prior record, the returned analysis ends up stored under the agent name
(the early return stores it only through the Python alias, which exists
exactly when a prior record did). -/
theorem getAnalysis_setAnalysis_name (ctx : ContextStore) (a : AgentAnalysis)
    (k : String) (hk : a.agentName = k) :
    (ctx.setAnalysis a).getAnalysis k = some a := by
  rw [← hk]
  exact getAnalysis_setAnalysis_self ctx a

theorem execute_stores (name : String) (deps : List String) (sa : AgentAnalysis → Bool)
    (runR : ContextStore → Except String ModuleScore) (cot ts1 ts2 : String)
    (ctx : ContextStore)
    (hWKn : ∀ a, ctx.getAnalysis name = some a → a.agentName = name)
    (h : canRun deps ctx = true ∨ (ctx.getAnalysis name).isSome = true) :
    (execute name deps sa runR cot ts1 ts2 ctx).2.getAnalysis name
      = some (execute name deps sa runR cot ts1 ts2 ctx).1 := by
  cases hp : ctx.getAnalysis name with
  | none =>
      have hcr : canRun deps ctx = true := by
        rcases h with hc | hs
        · exact hc
        · rw [hp] at hs; simp at hs
      have hcr2 : ¬(canRun deps ctx = false) := by simp [hcr]
      simp only [execute, hp, Option.getD_none, if_neg hcr2]
      split
      · exact getAnalysis_setAnalysis_name _ _ _ rfl
      · exact getAnalysis_setAnalysis_name _ _ _ rfl
  | some a0 =>
      have hname : a0.agentName = name := hWKn a0 hp
      by_cases hcr : canRun deps ctx = false
      · simp only [execute, hp, Option.getD_some, if_pos hcr, Option.isSome_some, if_true]
        exact getAnalysis_setAnalysis_name _ _ _ hname
      · simp only [execute, hp, Option.getD_some, if_neg hcr]
        split
        · exact getAnalysis_setAnalysis_name _ _ _ hname
        · exact getAnalysis_setAnalysis_name _ _ _ hname

/-- Counterexample for C5 as stated: an agent whose dependency never ran,
executed against an empty store, returns a PENDING record with a descriptive
error that is nowhere in the store — the early return skips `set_analysis`
and no alias exists. -/
theorem c5_counterexample :
    (c5Exec.2.getAnalysis "seo" = none)
    ∧ (c5Exec.2.analyses = [])
    ∧ (c5Exec.1.agentName = "seo")
    ∧ (c5Exec.1.status = .pending)
    ∧ (c5Exec.1.errors = ["Dependencies not met: website"]) := by
  refine ⟨?_, ?_, ?_, ?_, ?_⟩ <;> decide

/-- Claim C5 (corrected): the analysis record `execute` returns is stored in
the context store under the agent name on the success, NEEDS_REVISION and
FAILED paths always, and on the dependency-unmet early return exactly when a
prior record existed (the in-place mutation of the aliased record); with no
prior record the early return leaves the store untouched. -/
theorem c5_analysis_persisted_unless_fresh_early_abort (name : String)
    (deps : List String) (sa : AgentAnalysis → Bool)
    (runR : ContextStore → Except String ModuleScore) (cot ts1 ts2 : String)
    (ctx : ContextStore)
    (hWKn : ∀ a, ctx.getAnalysis name = some a → a.agentName = name)
    (h : canRun deps ctx = true ∨ (ctx.getAnalysis name).isSome = true) :
    (execute name deps sa runR cot ts1 ts2 ctx).2.getAnalysis name
      = some (execute name deps sa runR cot ts1 ts2 ctx).1 :=
  execute_stores name deps sa runR cot ts1 ts2 ctx hWKn h

/-- Witness for C5: a dependency-free agent executed on an empty store has
its returned COMPLETED record stored under its name. -/
theorem c5_witness :
    ((execute "b" [] (fun _ => true)
        (fun _ => .ok (passingModule "B Module" {})) "" "" "" ctxT).2.getAnalysis "b"
      = some (execute "b" [] (fun _ => true)
          (fun _ => .ok (passingModule "B Module" {})) "" "" "" ctxT).1)
    ∧ ((execute "b" [] (fun _ => true)
        (fun _ => .ok (passingModule "B Module" {})) "" "" "" ctxT).1.status
      = .completed) := by
  refine ⟨c5_analysis_persisted_unless_fresh_early_abort "b" [] (fun _ => true)
    (fun _ => .ok (passingModule "B Module" {})) "" "" "" ctxT ?_ (Or.inl (by decide)), ?_⟩
  · intro a ha
    simp [ContextStore.getAnalysis, ctxT, dictGet] at ha
  · decide

/-- A module at 95% maps to the Market Authority outcome. -/
theorem outcome_of_pct_95 (s : ModuleScore) (h : s.percentage = 95) :
    s.outcome = .authority := by
  simp only [ModuleScore.outcome, h]
  norm_num

/-- The trust module at 30% maps to the Critical Authority Gap outcome (its
name contains `trust`). -/
theorem outcome_of_trust_30 (t : ModuleScore) (h : t.percentage = 30)
    (hn : t.name = "Trust & Credibility") : t.outcome = .gapAuthority := by
  simp only [ModuleScore.outcome, h, hn]
  decide

/-- Claim C7 (corrected): the Leaky Bucket rule is keyed on the seo module,
not the positioning module — whenever the seo module sits at 95% and the
trust module at 30%, whatever the other modules, `synthesize_findings`
returns the Leaky Bucket friction point. -/
theorem c7_leaky_bucket_keyed_on_seo (ctx : ContextStore) (sa ta : AgentAnalysis)
    (s t : ModuleScore)
    (hsa : ctx.getAnalysis "seo" = some sa) (hs : sa.moduleScore = some s)
    (hp : s.percentage = 95)
    (hta : ctx.getAnalysis "trust" = some ta) (ht : ta.moduleScore = some t)
    (hq : t.percentage = 30) (hn : t.name = "Trust & Credibility") :
    Orchestrator.synthesizeFindings ctx = Orchestrator.leakyBucketFriction := by
  have h1 : Orchestrator.synthGet ctx "seo" = some .authority := by
    unfold Orchestrator.synthGet
    rw [if_pos (by decide), hsa]
    simp [hs, outcome_of_pct_95 s hp]
  have h2 : Orchestrator.synthGet ctx "trust" = some .gapAuthority := by
    unfold Orchestrator.synthGet
    rw [if_pos (by decide), hta]
    simp [ht, outcome_of_trust_30 t hq hn]
  simp [Orchestrator.synthesizeFindings, h1, h2]

/-- Counterexample for C7 as stated: with the positioning module at 95% and
the trust module at 30% and nothing else analyzed, `synthesize_findings`
returns the generic default, not the Leaky Bucket finding — the rule reads
the seo outcome, which is absent. -/
theorem c7_counterexample :
    (posModule95.percentage = 95)
    ∧ (trustModule30.percentage = 30)
    ∧ ((ctxC7.getAnalysis "positioning").map AgentAnalysis.moduleScore
        = some (some posModule95))
    ∧ ((ctxC7.getAnalysis "trust").map AgentAnalysis.moduleScore
        = some (some trustModule30))
    ∧ (Orchestrator.synthesizeFindings ctxC7 = Orchestrator.genericFriction)
    ∧ (Orchestrator.genericFriction ≠ Orchestrator.leakyBucketFriction) := by
  refine ⟨?_, ?_, by decide, by decide, ?_, by decide⟩
  · simp [posModule95, ModuleScore.percentage, ModuleScore.maxPoints,
      ModuleScore.actualPoints]
  · simp [trustModule30, ModuleScore.percentage, ModuleScore.maxPoints,
      ModuleScore.actualPoints]
  · have hseo : Orchestrator.synthGet ctxC7 "seo" = none := by
      unfold Orchestrator.synthGet
      rw [if_pos (by decide)]
      decide
    have hcontent : Orchestrator.synthGet ctxC7 "content" = none := by
      unfold Orchestrator.synthGet
      rw [if_pos (by decide)]
      decide
    simp [Orchestrator.synthesizeFindings, hseo, hcontent]

/-- Witness for C7: on a context where the seo module is at 95% and the
trust module at 30%, the synthesis returns the Leaky Bucket finding. -/
theorem c7_witness :
    Orchestrator.synthesizeFindings ctxC7W = Orchestrator.leakyBucketFriction := by
  refine c7_leaky_bucket_keyed_on_seo ctxC7W
    (mkCompleted "seo" seoModule95) (mkCompleted "trust" trustModule30)
    seoModule95 trustModule30 (by decide) rfl ?_ (by decide) rfl ?_ rfl
  · simp [seoModule95, ModuleScore.percentage, ModuleScore.maxPoints,
      ModuleScore.actualPoints]
  · simp [trustModule30, ModuleScore.percentage, ModuleScore.maxPoints,
      ModuleScore.actualPoints]

/-- `can_run` only reads the dependency entries of the store. -/
theorem canRun_congr (deps : List String) (ctx1 ctx2 : ContextStore)
    (h : ∀ d ∈ deps, ctx2.getAnalysis d = ctx1.getAnalysis d) :
    canRun deps ctx2 = canRun deps ctx1 := by
  unfold canRun
  induction deps with
  | nil => rfl
  | cons d ds ih =>
      simp only [List.all_cons]
      rw [h d (List.mem_cons_self d ds), ih (fun x hx => h x (List.mem_cons_of_mem d hx))]

/-- A satisfied `can_run` means every dependency has a COMPLETED analysis. -/
theorem canRun_dep {deps : List String} {ctx : ContextStore}
    (hcr : canRun deps ctx = true) {d : String} (hd : d ∈ deps) :
    ∃ a, ctx.getAnalysis d = some a ∧ a.status = .completed := by
  unfold canRun at hcr
  rw [List.all_eq_true] at hcr
  have hthis := hcr d hd
  cases hga : ctx.getAnalysis d with
  | none => rw [hga] at hthis; simp at hthis
  | some a =>
      rw [hga] at hthis
      simp only [decide_eq_true_eq] at hthis
      exact ⟨a, rfl, hthis⟩

/-- `execute` touches no store entry other than the one under the agent
name. -/
theorem execute_preserves (name : String) (deps : List String)
    (sa : AgentAnalysis → Bool) (runR : ContextStore → Except String ModuleScore)
    (cot ts1 ts2 : String) (ctx : ContextStore) (k : String)
    (hWKn : ∀ a, ctx.getAnalysis name = some a → a.agentName = name)
    (hk : k ≠ name) :
    (execute name deps sa runR cot ts1 ts2 ctx).2.getAnalysis k = ctx.getAnalysis k := by
  cases hp : ctx.getAnalysis name with
  | none =>
      by_cases hcr : canRun deps ctx = false
      · simp only [execute, hp, Option.getD_none, if_pos hcr, Option.isSome_none]
        simp
      · simp only [execute, hp, Option.getD_none, if_neg hcr]
        split
        · exact (getAnalysis_setAnalysis_ne _ _ _ (by exact hk)).trans
            ((getAnalysis_setAnalysis_ne _ _ _ (by exact hk)).trans
              (getAnalysis_setAnalysis_ne _ _ _ (by exact hk)))
        · exact (getAnalysis_setAnalysis_ne _ _ _ (by exact hk)).trans
            ((getAnalysis_setAnalysis_ne _ _ _ (by exact hk)).trans
              (getAnalysis_setAnalysis_ne _ _ _ (by exact hk)))
  | some a0 =>
      have hname : a0.agentName = name := hWKn a0 hp
      have hk0 : k ≠ a0.agentName := by rw [hname]; exact hk
      by_cases hcr : canRun deps ctx = false
      · simp only [execute, hp, Option.getD_some, if_pos hcr, Option.isSome_some, if_true]
        exact getAnalysis_setAnalysis_ne _ _ _ hk0
      · simp only [execute, hp, Option.getD_some, if_neg hcr]
        split
        · exact (getAnalysis_setAnalysis_ne _ _ _ (by exact hk0)).trans
            ((getAnalysis_setAnalysis_ne _ _ _ (by exact hk0)).trans
              (getAnalysis_setAnalysis_ne _ _ _ (by exact hk0)))
        · exact (getAnalysis_setAnalysis_ne _ _ _ (by exact hk0)).trans
            ((getAnalysis_setAnalysis_ne _ _ _ (by exact hk0)).trans
              (getAnalysis_setAnalysis_ne _ _ _ (by exact hk0)))

/-- `execute` keeps the store well-keyed. -/
theorem execute_wellKeyed (name : String) (deps : List String)
    (sa : AgentAnalysis → Bool) (runR : ContextStore → Except String ModuleScore)
    (cot ts1 ts2 : String) (ctx : ContextStore) (hwk : WellKeyed ctx) :
    WellKeyed (execute name deps sa runR cot ts1 ts2 ctx).2 := by
  cases hp : ctx.getAnalysis name with
  | none =>
      by_cases hcr : canRun deps ctx = false
      · simp only [execute, hp, Option.getD_none, if_pos hcr, Option.isSome_none]
        simpa using hwk
      · simp only [execute, hp, Option.getD_none, if_neg hcr]
        split
        · exact wellKeyed_setAnalysis (wellKeyed_setAnalysis (wellKeyed_setAnalysis hwk _) _) _
        · exact wellKeyed_setAnalysis (wellKeyed_setAnalysis (wellKeyed_setAnalysis hwk _) _) _
  | some a0 =>
      by_cases hcr : canRun deps ctx = false
      · simp only [execute, hp, Option.getD_some, if_pos hcr, Option.isSome_some, if_true]
        exact wellKeyed_setAnalysis hwk _
      · simp only [execute, hp, Option.getD_some, if_neg hcr]
        split
        · exact wellKeyed_setAnalysis (wellKeyed_setAnalysis (wellKeyed_setAnalysis hwk _) _) _
        · exact wellKeyed_setAnalysis (wellKeyed_setAnalysis (wellKeyed_setAnalysis hwk _) _) _

/-- With dependencies satisfied, `execute` leaves the agent in an executed
state: FAILED, COMPLETED or NEEDS_REVISION. -/
theorem execute_status_of_canRun (name : String) (deps : List String)
    (sa : AgentAnalysis → Bool) (runR : ContextStore → Except String ModuleScore)
    (cot ts1 ts2 : String) (ctx : ContextStore) (hcr : canRun deps ctx = true) :
    (execute name deps sa runR cot ts1 ts2 ctx).1.status = .failed
      ∨ (execute name deps sa runR cot ts1 ts2 ctx).1.status = .completed
      ∨ (execute name deps sa runR cot ts1 ts2 ctx).1.status = .needsRevision := by
  have hcr2 : ¬(canRun deps ctx = false) := by simp [hcr]
  cases hp : ctx.getAnalysis name with
  | none =>
      simp only [execute, hp, Option.getD_none, if_neg hcr2]
      split
      · exact Or.inl rfl
      · dsimp only
        split
        · exact Or.inr (Or.inl rfl)
        · exact Or.inr (Or.inr rfl)
  | some a0 =>
      simp only [execute, hp, Option.getD_some, if_neg hcr2]
      split
      · exact Or.inl rfl
      · dsimp only
        split
        · exact Or.inr (Or.inl rfl)
        · exact Or.inr (Or.inr rfl)

/-- Folding `execute` over entries that avoid a key leaves that key alone. -/
theorem phaseFold_preserves (l : List (String × Orchestrator.AgentSpec)) :
    ∀ (ctx : ContextStore) (k : String), WellKeyed ctx → (∀ p ∈ l, p.1 ≠ k) →
      (Orchestrator.phaseFold l ctx).getAnalysis k = ctx.getAnalysis k := by
  induction l with
  | nil => intro ctx k _ _; rfl
  | cons hd tl ih =>
      intro ctx k hwk hne
      obtain ⟨n, spec⟩ := hd
      show (Orchestrator.phaseFold tl
        ((execute n spec.deps spec.sAudit spec.behavior spec.cot "" "" ctx).2)).getAnalysis k
        = ctx.getAnalysis k
      rw [ih _ _ (execute_wellKeyed n spec.deps spec.sAudit spec.behavior spec.cot "" "" ctx hwk)
        (fun p hp => hne p (List.mem_cons_of_mem _ hp))]
      exact execute_preserves n spec.deps spec.sAudit spec.behavior spec.cot "" "" ctx k
        (wellKeyed_at hwk n) (Ne.symm (hne (n, spec) (List.mem_cons_self _ _)))

/-- Folding `execute` keeps the store well-keyed. -/
theorem phaseFold_wellKeyed (l : List (String × Orchestrator.AgentSpec)) :
    ∀ ctx : ContextStore, WellKeyed ctx → WellKeyed (Orchestrator.phaseFold l ctx) := by
  induction l with
  | nil => intro ctx hwk; exact hwk
  | cons hd tl ih =>
      intro ctx hwk
      obtain ⟨n, spec⟩ := hd
      exact ih _ (execute_wellKeyed n spec.deps spec.sAudit spec.behavior spec.cot "" "" ctx hwk)

/-- Every launched agent of a phase whose dependencies stay outside the
launch list ends the fold with an executed analysis in the store. -/
theorem phaseFold_executes (l : List (String × Orchestrator.AgentSpec)) :
    ∀ (ctx : ContextStore) (b : String) (spec : Orchestrator.AgentSpec),
      WellKeyed ctx → (l.map Prod.fst).Nodup → (b, spec) ∈ l →
      canRun spec.deps ctx = true →
      (∀ d ∈ spec.deps, d ∉ l.map Prod.fst) →
      ∃ a, (Orchestrator.phaseFold l ctx).getAnalysis b = some a
        ∧ (a.status = .failed ∨ a.status = .completed ∨ a.status = .needsRevision) := by
  induction l with
  | nil => intro ctx b spec _ _ hmem; simp at hmem
  | cons hd tl ih =>
      intro ctx b spec hwk hnd hmem hcr hdeps
      obtain ⟨n, nspec⟩ := hd
      rcases List.mem_cons.mp hmem with heq | hmem2
      · cases heq
        have hstore := execute_stores b spec.deps spec.sAudit spec.behavior spec.cot "" "" ctx
          (wellKeyed_at hwk b) (Or.inl hcr)
        have hstat := execute_status_of_canRun b spec.deps spec.sAudit spec.behavior
          spec.cot "" "" ctx hcr
        have hwk2 := execute_wellKeyed b spec.deps spec.sAudit spec.behavior
          spec.cot "" "" ctx hwk
        have hbnot : b ∉ tl.map Prod.fst := by
          have := hnd
          simp only [List.map_cons, List.nodup_cons] at this
          exact this.1
        have hni : ∀ p ∈ tl, p.1 ≠ b := by
          intro p hp hpe
          exact hbnot (hpe ▸ List.mem_map_of_mem Prod.fst hp)
        refine ⟨(execute b spec.deps spec.sAudit spec.behavior spec.cot "" "" ctx).1, ?_, hstat⟩
        show (Orchestrator.phaseFold tl
          ((execute b spec.deps spec.sAudit spec.behavior spec.cot "" "" ctx).2)).getAnalysis b
          = _
        rw [phaseFold_preserves tl _ b hwk2 hni]
        exact hstore
      · have hbn : b ≠ n := by
          intro hbe
          have hmap : b ∈ tl.map Prod.fst := List.mem_map_of_mem Prod.fst hmem2
          rw [hbe] at hmap
          have := hnd
          simp only [List.map_cons, List.nodup_cons] at this
          exact this.1 hmap
        have hwk2 := execute_wellKeyed n nspec.deps nspec.sAudit nspec.behavior
          nspec.cot "" "" ctx hwk
        have hpres : ∀ d ∈ spec.deps,
            ((execute n nspec.deps nspec.sAudit nspec.behavior nspec.cot "" "" ctx).2).getAnalysis d
              = ctx.getAnalysis d := by
          intro d hd
          have hdn : d ≠ n := by
            intro hde
            exact (hdeps d hd) (by rw [hde]; simp)
          exact execute_preserves n nspec.deps nspec.sAudit nspec.behavior nspec.cot "" "" ctx d
            (wellKeyed_at hwk n) hdn
        have hcr2 : canRun spec.deps
            ((execute n nspec.deps nspec.sAudit nspec.behavior nspec.cot "" "" ctx).2) = true := by
          rw [canRun_congr spec.deps ctx _ hpres]
          exact hcr
        have hnd2 : (tl.map Prod.fst).Nodup := by
          have := hnd
          simp only [List.map_cons, List.nodup_cons] at this
          exact this.2
        have hdeps2 : ∀ d ∈ spec.deps, d ∉ tl.map Prod.fst := by
          intro d hd hmap
          exact (hdeps d hd) (List.mem_cons_of_mem _ hmap)
        exact ih _ b spec hwk2 hnd2 hmem2 hcr2 hdeps2

/-- A produced eligibility entry is keyed by the phase agent it came from. -/
theorem eligibleEntry_fst (table : List (String × Orchestrator.AgentSpec))
    (ctx : ContextStore) (n : String) (p : String × Orchestrator.AgentSpec)
    (h : Orchestrator.eligibleEntry table ctx n = some p) : p.1 = n := by
  unfold Orchestrator.eligibleEntry at h
  cases hdt : dictGet table n with
  | none => rw [hdt] at h; simp at h
  | some spec =>
      rw [hdt] at h
      dsimp only at h
      by_cases hcr : canRun spec.deps ctx = false
      · simp [hcr] at h
      · rw [if_neg hcr] at h
        cases hga : ctx.getAnalysis n with
        | none =>
            rw [hga] at h
            dsimp only at h
            cases h
            rfl
        | some a =>
            rw [hga] at h
            dsimp only at h
            by_cases hst : a.status = .completed
            · simp [hst] at h
            · rw [if_neg hst] at h
              cases h
              rfl

/-- Introduction rule for phase eligibility. -/
theorem mem_eligible_intro (table : List (String × Orchestrator.AgentSpec))
    (phase : List String) (ctx : ContextStore) (b : String)
    (spec : Orchestrator.AgentSpec)
    (hb : b ∈ phase) (ht : dictGet table b = some spec)
    (hcr : canRun spec.deps ctx = true)
    (hnc : ∀ a, ctx.getAnalysis b = some a → a.status ≠ .completed) :
    (b, spec) ∈ Orchestrator.eligibleAgents table phase ctx := by
  apply List.mem_filterMap.mpr
  refine ⟨b, hb, ?_⟩
  unfold Orchestrator.eligibleEntry
  rw [ht]
  dsimp only
  rw [if_neg (by simp [hcr])]
  cases hga : ctx.getAnalysis b with
  | none => rfl
  | some a =>
      dsimp only
      rw [if_neg (hnc a hga)]

/-- Elimination rule for phase eligibility: an eligible agent is not
COMPLETED at the phase start. -/
theorem mem_eligible_not_completed (table : List (String × Orchestrator.AgentSpec))
    (phase : List String) (ctx : ContextStore) (p : String × Orchestrator.AgentSpec)
    (hp : p ∈ Orchestrator.eligibleAgents table phase ctx) :
    ∀ a, ctx.getAnalysis p.1 = some a → a.status ≠ .completed := by
  rcases List.mem_filterMap.mp hp with ⟨n, _, hfn⟩
  have hfst : p.1 = n := eligibleEntry_fst table ctx n p hfn
  unfold Orchestrator.eligibleEntry at hfn
  cases hdt : dictGet table n with
  | none => rw [hdt] at hfn; simp at hfn
  | some spec =>
      rw [hdt] at hfn
      dsimp only at hfn
      by_cases hcr : canRun spec.deps ctx = false
      · simp [hcr] at hfn
      · rw [if_neg hcr] at hfn
        cases hga : ctx.getAnalysis n with
        | none =>
            intro a ha
            rw [hfst, hga] at ha
            cases ha
        | some a0 =>
            rw [hga] at hfn
            dsimp only at hfn
            by_cases hst : a0.status = .completed
            · simp [hst] at hfn
            · intro a ha
              rw [hfst, hga] at ha
              cases ha
              exact hst

/-- The launched names of a phase form a sublist of the phase. -/
theorem eligible_map_fst_sublist (table : List (String × Orchestrator.AgentSpec))
    (ctx : ContextStore) :
    ∀ phase, ((Orchestrator.eligibleAgents table phase ctx).map Prod.fst).Sublist phase := by
  intro phase
  induction phase with
  | nil => simp [Orchestrator.eligibleAgents]
  | cons n ns ih =>
      unfold Orchestrator.eligibleAgents
      rw [List.filterMap_cons]
      cases hf : Orchestrator.eligibleEntry table ctx n with
      | none =>
          exact List.Sublist.cons n ih
      | some p =>
          rw [List.map_cons]
          rw [eligibleEntry_fst table ctx n p hf]
          exact List.Sublist.cons₂ n ih

/-- Claim C2: an exception raised by `run()` is contained by `execute` — the
analysis comes back FAILED with the message on its non-empty error list —
and the scheduler still proceeds: after a phase containing any such failing
agents, every agent of the next phase that is registered, dependency-ready
and not yet COMPLETED is executed, ending FAILED, COMPLETED or
NEEDS_REVISION in the store. -/
theorem c2_run_exception_contained_and_phases_proceed :
    (∀ (name : String) (deps : List String) (sa : AgentAnalysis → Bool)
       (runR : ContextStore → Except String ModuleScore) (e cot ts1 ts2 : String)
       (ctx : ContextStore),
       (∀ c, runR c = .error e) → canRun deps ctx = true →
       ((execute name deps sa runR cot ts1 ts2 ctx).1.status = .failed
         ∧ (execute name deps sa runR cot ts1 ts2 ctx).1.errors ≠ []
         ∧ e ∈ (execute name deps sa runR cot ts1 ts2 ctx).1.errors))
    ∧ (∀ (table : List (String × Orchestrator.AgentSpec)) (p1 p2 : List String)
         (ctx : ContextStore) (b : String) (spec : Orchestrator.AgentSpec),
         WellKeyed ctx → p2.Nodup → b ∈ p2 → dictGet table b = some spec →
         canRun spec.deps (Orchestrator.runPhase table p1 ctx) = true →
         (∀ a, (Orchestrator.runPhase table p1 ctx).getAnalysis b = some a →
            a.status ≠ .completed) →
         ∃ a, (Orchestrator.runPhases table [p1, p2] ctx).getAnalysis b = some a
           ∧ (a.status = .failed ∨ a.status = .completed ∨ a.status = .needsRevision)) := by
  constructor
  · intro name deps sa runR e cot ts1 ts2 ctx hrr hcr
    have hcr2 : ¬(canRun deps ctx = false) := by simp [hcr]
    cases hp : ctx.getAnalysis name with
    | none =>
        simp only [execute, hp, Option.getD_none, if_neg hcr2, hrr]
        exact ⟨by simp, by simp, by simp⟩
    | some a0 =>
        simp only [execute, hp, Option.getD_some, if_neg hcr2, hrr]
        exact ⟨by simp, by simp, by simp⟩
  · intro table p1 p2 ctx b spec hwk hnd hb ht hcr hnc
    have hwk1 : WellKeyed (Orchestrator.runPhase table p1 ctx) :=
      phaseFold_wellKeyed _ _ hwk
    have hmem : (b, spec) ∈
        Orchestrator.eligibleAgents table p2 (Orchestrator.runPhase table p1 ctx) :=
      mem_eligible_intro table p2 _ b spec hb ht hcr hnc
    have hnd2 : ((Orchestrator.eligibleAgents table p2
        (Orchestrator.runPhase table p1 ctx)).map Prod.fst).Nodup :=
      hnd.sublist (eligible_map_fst_sublist table _ p2)
    have hdeps : ∀ d ∈ spec.deps, d ∉ (Orchestrator.eligibleAgents table p2
        (Orchestrator.runPhase table p1 ctx)).map Prod.fst := by
      intro d hd hmap
      rcases List.mem_map.mp hmap with ⟨p, hpmem, hpd⟩
      rcases canRun_dep hcr hd with ⟨a, hga, hst⟩
      have := mem_eligible_not_completed table p2 _ p hpmem a (by rw [hpd]; exact hga)
      exact this hst
    exact phaseFold_executes _ _ b spec hwk1 hnd2 hmem hcr hdeps

/-- Witness for C2: agent `a` raising in phase one ends FAILED with the
message recorded, and agent `b` of phase two is still executed. -/
theorem c2_witness :
    ((execute "a" [] defaultSelfAudit (fun _ => .error "boom") "" "" "" ctxT).1.status
      = .failed)
    ∧ ((execute "a" [] defaultSelfAudit (fun _ => .error "boom") "" "" "" ctxT).1.errors ≠ [])
    ∧ ("boom" ∈ (execute "a" [] defaultSelfAudit (fun _ => .error "boom") "" "" "" ctxT).1.errors)
    ∧ (∃ a, (Orchestrator.runPhases tableC2 [["a"], ["b"]] ctxT).getAnalysis "b" = some a
        ∧ (a.status = .failed ∨ a.status = .completed ∨ a.status = .needsRevision)) := by
  have h1 := c2_run_exception_contained_and_phases_proceed.1 "a" [] defaultSelfAudit
    (fun _ => .error "boom") "boom" "" "" "" ctxT (fun _ => rfl) (by decide)
  refine ⟨h1.1, h1.2.1, h1.2.2, ?_⟩
  have hnone : (Orchestrator.runPhase tableC2 ["a"] ctxT).getAnalysis "b" = none := by
    decide
  refine c2_run_exception_contained_and_phases_proceed.2 tableC2 ["a"] ["b"] ctxT "b" specOk
    ?_ (by decide) (by decide) rfl (by decide) ?_
  · intro p hp
    simp [ctxT] at hp
  · intro a ha
    rw [hnone] at ha
    exact absurd ha (by simp)

end WebsiteAudit
